import Mathlib

set_option maxRecDepth 8000

/-!
# Verification of the SQES quality-evaluation pipeline

A shallow embedding, in Lean 4, of the core of the `sqes_backend`
repository: the grading engine (`sqes/analysis/qc_analyzer.py`), the
basic-metrics kernel (`sqes/core/basic_metrics.py`), the Peterson
noise-model library (`sqes/core/models.py`), the repository row layouts
(`sqes/services/repository.py`), the per-station worker
(`sqes/workflows/station_processor.py`) and the daily processing loop
(`sqes/workflows/daily_processor.py`).

Python floats are embedded as exact rationals (`ℚ`); the decimal literal
of the source is taken at face value.  Values that the source computes
with `math.sqrt` / `math.log10` live in `ℝ`.  Database rows are lists of
a small value type; the database itself is abstracted to the lists of
rows that queries return and inserts produce.
-/

namespace SQES

/-- Python `round(x, 2)` uses round-half-to-even on the scaled value.
This is the integer-valued half-to-even rounding. -/
def halfEvenRound (q : ℚ) : ℤ :=
  let f := ⌊q⌋
  let r := q - f
  if r < 1/2 then f
  else if r > 1/2 then f + 1
  else if f % 2 = 0 then f else f + 1

/-- Python `round(x, 2)`: round to two decimal places, ties to even. -/
def round2 (q : ℚ) : ℚ := (halfEvenRound (q * 100) : ℚ) / 100

/-! ## Grading engine (`sqes/analysis/qc_analyzer.py`, `sqes/analysis/models.py`) -/

/-- `QCThresholds` dataclass of `sqes/analysis/models.py`, with the
default values of the source.  Counting thresholds that the source keeps
as `int` are embedded as `ℤ`. -/
structure QCThresholds where
  rms_limit : ℚ := 5000
  ratioamp_limit : ℚ := 1.01
  gap_limit : ℚ := 0.00274
  overlap_limit : ℚ := 0
  spike_limit : ℚ := 0
  rms_margin : ℚ := 7500
  ratioamp_margin : ℚ := 2.02
  gap_margin : ℚ := 0.992
  overlap_margin : ℚ := 1.25
  spike_margin : ℚ := 25
  pct_below_warn : ℚ := 20
  pct_above_warn : ℚ := 20
  gap_count_warn : ℤ := 5
  overlap_count_warn : ℤ := 5
  spike_count_warn : ℤ := 25
  avail_good : ℚ := 97
  avail_fair : ℚ := 60
  avail_min_for_noise_check : ℚ := 10
  dcl_dead : ℚ := 2.25
  rms_damaged_max : ℚ := 1.0
  fair_max_score : ℚ := 89
  poor_max_score : ℚ := 59
  weight_noise : ℚ := 0.35
  weight_availability : ℚ := 0.15
  weight_rms : ℚ := 0.10
  weight_ratioamp : ℚ := 0.10
  weight_gaps : ℚ := 0.10
  weight_overlaps : ℚ := 0.10
  weight_spikes : ℚ := 0.10

/-- `DEFAULT_THRESHOLDS = QCThresholds()` of `sqes/analysis/models.py`. -/
def DEFAULT_THRESHOLDS : QCThresholds := {}

/-- `calculate_metric_grade(value, threshold, margin)` of
`sqes/analysis/qc_analyzer.py`:
`grade = 100.0 - (15.0 * (value - threshold) / margin)`, then
`max(0.0, min(100.0, grade))`.  Note the Python source raises
`ZeroDivisionError` when `margin == 0`; the rational embedding uses the
`x / 0 = 0` convention there. -/
def calculate_metric_grade (value threshold margin : ℚ) : ℚ :=
  let grade := 100 - (15 * (value - threshold) / margin)
  max 0 (min 100 grade)

/-- `determine_warning(...)` of `sqes/analysis/qc_analyzer.py`: each
matching condition appends its message, in the fixed source order. -/
def determine_warning (component : String) (avail pct_below pct_above : ℚ)
    (ngap1 nover num_spikes : ℤ) (th : QCThresholds) : List String :=
  (if pct_below > th.pct_below_warn then ["Cek metadata komponen " ++ component] else []) ++
  (if ngap1 > th.gap_count_warn then ["Terlalu banyak gap pada komponen " ++ component] else []) ++
  (if nover > th.overlap_count_warn then ["Terlalu banyak overlap pada komponen " ++ component] else []) ++
  (if pct_above > th.pct_above_warn ∧ avail ≥ th.avail_min_for_noise_check then
    ["Noise tinggi di komponen " ++ component] else []) ++
  (if num_spikes > th.spike_count_warn then ["Spike berlebihan pada komponen " ++ component] else []) ++
  (if avail < th.avail_good ∧ avail ≥ th.avail_fair then
    ["Availability rendah pada komponen " ++ component] else []) ++
  (if avail < th.avail_fair ∧ avail > 0 then
    ["Availability sangat rendah pada komponen " ++ component] else [])

/-- `check_qc(score)` of `sqes/analysis/qc_analyzer.py`. -/
def check_qc (score : ℚ) : String :=
  if score ≥ 90 then "Baik"
  else if score ≥ 60 then "Cukup Baik"
  else if score = 0 then "Mati"
  else "Buruk"

/-- `np.sort` (ascending) on a rational vector. -/
def npSorted (l : List ℚ) : List ℚ := l.insertionSort (· ≤ ·)

/-- `np.percentile(a, q)` with the default linear interpolation:
`h = (n-1)·q/100`, result `a[⌊h⌋] + (h − ⌊h⌋)·(a[⌈h⌉] − a[⌊h⌋])` on the
sorted data. -/
def npPercentile (l : List ℚ) (q : ℚ) : ℚ :=
  let a := npSorted l
  let h : ℚ := ((l.length : ℚ) - 1) * q / 100
  let lo := (⌊h⌋).toNat
  let hi := (⌈h⌉).toNat
  a.getD lo 0 + (h - (⌊h⌋ : ℚ)) * (a.getD hi 0 - a.getD lo 0)

/-- `aggregate_station_score(component_scores, method='p25')` of
`sqes/analysis/qc_analyzer.py`.  `run_qc_analysis` only ever calls the
`'p25'` branch (`np.percentile(component_scores, 25)`), which is the
branch embedded here. -/
def aggregate_station_score (component_scores : List ℚ) : ℚ :=
  npPercentile component_scores 25

/-- Station-score aggregation of `run_qc_analysis`
(`sqes/analysis/qc_analyzer.py`, step 9): score `0` for an empty list,
else the 25th percentile, capped at `poor_max_score` when some component
score equals the unresponsive/damaged sentinel `1.0`. -/
def station_score (percqc_list : List ℚ) (th : QCThresholds) : ℚ :=
  if percqc_list = [] then 0
  else if (1 : ℚ) ∈ percqc_list then
    min (aggregate_station_score percqc_list) th.poor_max_score
  else aggregate_station_score percqc_list

/-- The per-channel scoring input derived from a detail row by
`run_qc_analysis` (step 5). -/
structure ChannelMetrics where
  komp : String
  rms : ℚ
  ratioamp : ℚ
  avail : ℚ
  ngap1 : ℤ
  nover : ℤ
  num_spikes : ℤ
  pct_above : ℚ
  pct_below : ℚ
  dcl : ℚ
  dcg : ℚ
deriving DecidableEq, Repr

/-- Per-channel grading of `run_qc_analysis` (steps 7-8): returns the
component score `botqc` together with the warning strings appended to
`ket` for this component. -/
def channel_botqc (m : ChannelMetrics) (th : QCThresholds) : ℚ × List String :=
  let rms_grade :=
    if m.rms > th.rms_damaged_max then
      calculate_metric_grade |m.rms| th.rms_limit th.rms_margin
    else 0
  let ngap1 : ℤ := if m.avail ≥ 100 then 0 else m.ngap1
  let avail : ℚ := if m.avail ≥ 100 then 100 else m.avail
  let ratioamp_grade := calculate_metric_grade m.ratioamp th.ratioamp_limit th.ratioamp_margin
  let ngap_grade := calculate_metric_grade (ngap1 : ℚ) th.gap_limit th.gap_margin
  let nover_grade := calculate_metric_grade (m.nover : ℚ) th.overlap_limit th.overlap_margin
  let num_spikes_grade := calculate_metric_grade (m.num_spikes : ℚ) th.spike_limit th.spike_margin
  let pct_noise := 100 - m.pct_above - m.pct_below
  if avail ≤ 0 then (0, ["Komponen " ++ m.komp ++ " Mati"])
  else if m.dcg = 1 ∨ m.dcl ≤ th.dcl_dead then
    (1, ["Komponen " ++ m.komp ++ " tidak merespon getaran"])
  else if m.rms < th.rms_damaged_max ∧ m.rms > 0 then
    (1, ["Komponen " ++ m.komp ++ " Rusak"])
  else
    let botqc :=
      th.weight_noise * pct_noise +
      th.weight_availability * avail +
      th.weight_rms * rms_grade +
      th.weight_ratioamp * ratioamp_grade +
      th.weight_gaps * ngap_grade +
      th.weight_overlaps * nover_grade +
      th.weight_spikes * num_spikes_grade
    let warnings := determine_warning m.komp avail m.pct_below m.pct_above
      ngap1 m.nover m.num_spikes th
    if warnings ≠ [] then
      let capped :=
        if avail < th.avail_good ∧ avail ≥ th.avail_fair then min botqc th.fair_max_score
        else if avail < th.avail_fair ∧ avail > 0 then min botqc th.poor_max_score
        else botqc
      (capped, warnings)
    else (botqc, [])

/-! ## Repository row layouts (`sqes/services/repository.py`) -/

/-- A database cell: the embedding keeps strings and numerics apart.
Numeric columns store exact rationals. -/
inductive DBVal where
  | s : String → DBVal
  | q : ℚ → DBVal
deriving DecidableEq, Repr

/-- `float(v)` on a cell that the database returned: succeeds on numeric
cells.  (The pipeline only ever re-reads numerics it stored itself.) -/
def DBVal.asRat : DBVal → Option ℚ
  | .q v => some v
  | .s _ => none

/-- A cell used as a component label (`komp = qc_row[...]`, no
conversion applied). -/
def DBVal.asStr : DBVal → Option String
  | .s v => some v
  | .q _ => none

/-- Python `int(x)` on a float: truncation toward zero. -/
def ratToInt (v : ℚ) : ℤ := if 0 ≤ v then ⌊v⌋ else -⌊-v⌋

/-- The full set of values carried by one detail row, as assembled by
the worker (`all_metrics` in `station_processor.py`): identifiers plus
basic metrics plus PPSD metrics.  Numeric values are kept as rationals
(the database coerces the worker's decimal strings to numeric columns). -/
structure DetailMetrics where
  id_kode : String
  kode : String
  tgl : String
  cha : String
  rms : ℚ
  ratioamp : ℚ
  psdata : ℚ
  ngap : ℚ
  nover : ℚ
  num_spikes : ℚ
  pctH : ℚ
  pctL : ℚ
  dcl : ℚ
  dcg : ℚ
  long_period : ℚ
  microseism : ℚ
  short_period : ℚ
deriving DecidableEq, Repr

/-- The positional argument list of the repository's `insert_detail`
statement (`insert_qc_detail` of `sqes/services/repository.py`).  Both
dialects bind the same 17 values in the same order; only the column
names differ (mysql: `id_kode, kode, tanggal, komp, rms, ratioamp,
avail, ngap, nover, num_spikes, pct_above, pct_below, dead_channel_lin,
dead_channel_gsn, diff20_100, diff5_20, diff5`; postgresql: `id, code,
date, channel, rms, amplitude_ratio, availability, num_gap, num_overlap,
num_spikes, perc_above_nhnm, perc_below_nlnm, linear_dead_channel,
gsn_dead_channel, lp_percentage, bw_percentage, sp_percentage`). -/
def insert_detail_values (m : DetailMetrics) : List DBVal :=
  [.s m.id_kode, .s m.kode, .s m.tgl, .s m.cha,
   .q m.rms, .q m.ratioamp, .q m.psdata, .q m.ngap, .q m.nover, .q m.num_spikes,
   .q m.pctH, .q m.pctL, .q m.dcl, .q m.dcg,
   .q m.long_period, .q m.microseism, .q m.short_period]

/-- The row returned by `SELECT * FROM stations_qc_details ...` under
postgresql: exactly the columns of the postgresql `insert_detail`
statement, in declaration order (the `id` key is the first inserted
column). -/
def pg_select_detail_row (m : DetailMetrics) : List DBVal :=
  insert_detail_values m

/-- Modelled from the spec: the physical mysql table `tb_qcdetail` is
not created anywhere under the repository's source; its `SELECT *` shape
is fixed by the reading code (`qc_row[4]` is the component, ...,
`qc_row[14]` the GSN flag, both in `sqes/analysis/qc_analyzer.py` and in
the legacy `sqes_backend/sqes_function.py`), which the spec summarises
as "downstream the only differences are column names".  That shape is
the 17 inserted columns preceded by one surrogate-key column. -/
def mysql_select_detail_row (pk : DBVal) (m : DetailMetrics) : List DBVal :=
  pk :: insert_detail_values m

/-- `qc_row[i]` followed by `float(...)`. -/
def getRat (qc_row : List DBVal) (i : ℕ) : Option ℚ :=
  (qc_row.get? i).bind DBVal.asRat

/-- `qc_row[i]` used as a component label. -/
def getStr (qc_row : List DBVal) (i : ℕ) : Option String :=
  (qc_row.get? i).bind DBVal.asStr

/-- Assemble the scoring input once all eleven cells are read. -/
def mkChannelMetrics (komp : Option String)
    (rms ratioamp avail ngap1 nover num_spikes pct_above pct_below dcl dcg : Option ℚ) :
    Option ChannelMetrics :=
  match komp, rms, ratioamp, avail, ngap1, nover, num_spikes, pct_above, pct_below, dcl, dcg with
  | some komp, some rms, some ratioamp, some avail, some ngap1, some nover,
    some num_spikes, some pct_above, some pct_below, some dcl, some dcg =>
    some { komp := komp, rms := rms, ratioamp := ratioamp, avail := avail,
           ngap1 := ratToInt ngap1, nover := ratToInt nover,
           num_spikes := ratToInt num_spikes, pct_above := pct_above,
           pct_below := pct_below, dcl := dcl, dcg := dcg }
  | _, _, _, _, _, _, _, _, _, _, _ => none

/-- Column mapping of `run_qc_analysis` (`sqes/analysis/qc_analyzer.py`,
step 5): turn one detail row into the per-channel scoring input,
following the `db_type` branch of the source.  `none` models the caught
`(ValueError, TypeError, IndexError)` (row skipped) and the
unknown-db-type `continue`. -/
def parse_qc_row (db_type : String) (qc_row : List DBVal) : Option ChannelMetrics :=
  if db_type = "mysql" then
    mkChannelMetrics (getStr qc_row 4) (getRat qc_row 5) (getRat qc_row 6)
      (getRat qc_row 7) (getRat qc_row 8) (getRat qc_row 9) (getRat qc_row 10)
      (getRat qc_row 11) (getRat qc_row 12) (getRat qc_row 13) (getRat qc_row 14)
  else if db_type = "postgresql" then
    mkChannelMetrics (getStr qc_row 3) (getRat qc_row 4) (getRat qc_row 5)
      (getRat qc_row 6) (getRat qc_row 7) (getRat qc_row 8) (getRat qc_row 9)
      (getRat qc_row 11) (getRat qc_row 10) (getRat qc_row 12) (getRat qc_row 13)
  else none

/-! ## `run_qc_analysis` as a whole (`sqes/analysis/qc_analyzer.py`) -/

/-- One analysis row as stored by
`insert_qc_analysis_result` of `sqes/services/repository.py`.
`percqc` keeps the numeric content of the stored score string;
`tipe` is stored by the mysql statement only; `keterangan` is the
`', '.join(details)` serialisation (empty list ⇒ empty string). -/
structure AnalysisRow where
  code : String
  date : String
  percqc : ℚ
  kualitas : String
  tipe : Option String
  keterangan : String
deriving DecidableEq, Repr

/-- `ket_str` of `insert_qc_analysis_result`. -/
def ket_string (details : List String) : String :=
  if details = [] then "" else String.intercalate ", " details

/-- `insert_qc_analysis_result(code, date, percqc, result, tipe,
details)`: mysql binds `tipe`, postgresql does not. -/
def insert_qc_analysis_result (db_type code date : String) (percqc : ℚ)
    (result tipe : String) (details : List String) : AnalysisRow :=
  { code := code, date := date, percqc := percqc, kualitas := result,
    tipe := if db_type = "mysql" then some tipe else none,
    keterangan := ket_string details }

/-- Steps 4-8 of `run_qc_analysis`: fold the detail rows of one station
into the component-score list `percqc_list` and the message list `ket`.
Rows that fail to parse are skipped (`continue`). -/
def process_qc_rows (db_type : String) (dataqc : List (List DBVal))
    (th : QCThresholds) : List ℚ × List String :=
  dataqc.foldl
    (fun acc qc_row =>
      match parse_qc_row db_type qc_row with
      | none => acc
      | some m =>
        let r := channel_botqc m th
        (acc.1 ++ [r.1], acc.2 ++ r.2))
    ([], [])

/-- The body of `for sta in station_info` in `run_qc_analysis`: one
station-info row produces one analysis row, or `none` when an uncaught
`IndexError` escapes (`sta[0]`, `sta[1]` or `sta[3]` missing). -/
def analyze_station_info_row (db_type tanggal : String) (sta : List String)
    (dataqc : List (List DBVal)) (th : QCThresholds) : Option AnalysisRow := do
  let _network ← sta.get? 0
  let kode ← sta.get? 1
  let tipe ← sta.get? 3
  if dataqc = [] then
    some (insert_qc_analysis_result db_type kode tanggal 0 "Mati" tipe ["Tidak ada data"])
  else
    let r := process_qc_rows db_type dataqc th
    let score := station_score r.1 th
    some (insert_qc_analysis_result db_type kode tanggal (round2 score)
      (check_qc score) tipe r.2)

/-- The loop of `run_qc_analysis` over the rows of `get_station_info`.
Returns the analysis rows inserted in order, and `true` iff the loop ran
to completion (an uncaught `IndexError` aborts the remainder but keeps
the rows committed before it). -/
def run_qc_analysis_loop (db_type tanggal : String)
    (station_info : List (List String)) (details : String → List (List DBVal))
    (th : QCThresholds) : List AnalysisRow × Bool :=
  match station_info with
  | [] => ([], true)
  | sta :: rest =>
    match analyze_station_info_row db_type tanggal sta
        (details (sta.getD 1 "")) th with
    | none => ([], false)
    | some row =>
      let r := run_qc_analysis_loop db_type tanggal rest details th
      (row :: r.1, r.2)

/-- `run_qc_analysis(repo, db_type, tanggal, station_code)`: the
existing analysis rows are flushed (a database effect outside the
returned value), `station_info` is the result of
`repo.get_station_info(station_code)` and `details kode` the result of
`repo.get_qc_details_for_station(tanggal, kode)`.  An empty
`station_info` returns without writing anything. -/
def run_qc_analysis (db_type tanggal : String)
    (station_info : List (List String)) (details : String → List (List DBVal))
    (th : QCThresholds) : List AnalysisRow × Bool :=
  run_qc_analysis_loop db_type tanggal station_info details th

/-! ## Basic-metrics kernel (`sqes/core/basic_metrics.py`) -/

/-- One obspy trace: start time, end time and samples, with times as
rational seconds.  Every obspy trace with at least one sample satisfies
`starttime ≤ endtime` (`endtime = starttime + (npts-1)·delta`). -/
structure Trace where
  starttime : ℚ
  endtime : ℚ
  data : List ℚ
deriving DecidableEq, Repr

/-- An obspy stream of one channel. -/
abbrev Stream := List Trace

/-- `Stream.sort()` as performed inside `Stream.get_gaps`: traces in
ascending start-time order. -/
def streamSorted (st : Stream) : Stream :=
  st.insertionSort (fun a b => a.starttime ≤ b.starttime)

instance : IsTotal Trace (fun a b => a.starttime ≤ b.starttime) :=
  ⟨fun a b => le_total a.starttime b.starttime⟩

instance : IsTrans Trace (fun a b => a.starttime ≤ b.starttime) :=
  ⟨fun _ _ _ h1 h2 => le_trans h1 h2⟩

/-- The `gap[6]` duration column of `Stream.get_gaps()`: deltas
`next.starttime − prev.endtime` between consecutive traces of the
time-sorted stream. -/
def gapDeltas : Stream → List ℚ
  | a :: b :: rest => (b.starttime - a.endtime) :: gapDeltas (b :: rest)
  | _ => []

/-- `st.get_gaps()` reduced to its duration column. -/
def get_gaps (st : Stream) : List ℚ := gapDeltas (streamSorted st)

/-- `_calculate_gaps_overlaps(st)`: positive deltas count as gaps,
non-positive deltas as overlaps.  (The source's `except` branch, which
returns `(99999.0, 99999.0)` when obspy raises, has no counterpart in
the pure model.) -/
def gaps_overlaps (st : Stream) : ℕ × ℕ :=
  ((get_gaps st).countP (fun d => decide (0 < d)),
   (get_gaps st).countP (fun d => decide (¬ 0 < d)))

/-- Python `min(tr.stats.starttime for tr in st)` (callers guard against
the empty stream). -/
def streamStart : Stream → ℚ
  | [] => 0
  | t :: rest => (rest.map Trace.starttime).foldl min t.starttime

/-- Python `max(tr.stats.endtime for tr in st)`. -/
def streamEnd : Stream → ℚ
  | [] => 0
  | t :: rest => (rest.map Trace.endtime).foldl max t.endtime

/-- `_calculate_percent_availability(st, day_start_time, day_end_time)`
of `sqes/core/basic_metrics.py`: data span minus the positive gap
durations, as a percentage of the fixed daily window, rounded to two
decimals and capped at 100. -/
def percent_availability (st : Stream) (day_start_time day_end_time : ℚ) : ℚ :=
  if st = [] then 0
  else if day_end_time - day_start_time ≤ 0 then 0
  else if streamEnd st - streamStart st < 0 then 0
  else
    min 100 (round2 (100 *
      ((streamEnd st - streamStart st - ((get_gaps st).filter (fun d => 0 < d)).sum)
        / (day_end_time - day_start_time))))

/-- `_calculate_stream_amplitude(st)`: running `(ampmax, ampmin)` over
the traces, skipping traces without valid samples; `none` models the
all-NaN result `(np.nan, np.nan)`. -/
def stream_amplitude (st : Stream) : Option (ℚ × ℚ) :=
  st.foldl
    (fun acc tr =>
      match tr.data.max?, tr.data.min? with
      | some mx, some mn =>
        match acc with
        | none => some (mx, mn)
        | some p => some (max p.1 mx, min p.2 mn)
      | _, _ => acc)
    none

/-- `_calculate_ratioamp(ampmin, ampmax)` of
`sqes/core/basic_metrics.py`; a `none` argument models a NaN amplitude
(ratio 0.0).  The result is clamped at 99999. -/
def calculate_ratioamp (ampmin ampmax : Option ℚ) : ℚ :=
  let ratio : ℚ :=
    match ampmin, ampmax with
    | some mn, some mx =>
      if mx = 0 ∨ mn = 0 then 1
      else if mx > mn then mx / mn
      else mn / mx
    | _, _ => 0
  min ratio 99999

/-- `sqrt(mean((x - mean(x))²))` numerand of `_calculate_rms`: the mean
square of the centred samples, an exact rational. -/
def traceMeanSquare (l : List ℚ) : ℚ :=
  let m := l.sum / l.length
  (l.map (fun x => (x - m) ^ 2)).sum / l.length

/-- `_calculate_rms(st)`: mean over the traces with samples of the RMS
of the centred samples.  In exact arithmetic the mean square is never
negative or NaN, so no trace is skipped beyond the empty ones. -/
noncomputable def calculate_rms (st : Stream) : ℝ :=
  let traces := st.filter (fun tr => tr.data ≠ [])
  if traces = [] then 0
  else (traces.map (fun tr => Real.sqrt (traceMeanSquare tr.data))).sum / traces.length

/-- `np.median` on a rational vector: middle element of the sorted data,
or the mean of the two middle elements for even length. -/
def npMedian (l : List ℚ) : ℚ :=
  let s := npSorted l
  if l.length % 2 = 1 then s.getD (l.length / 2) 0
  else (s.getD (l.length / 2 - 1) 0 + s.getD (l.length / 2) 0) / 2

/-- `median(|x − median(x)|)`: the MAD used by both spike engines. -/
def madOf (w : List ℚ) : ℚ := npMedian (w.map (fun x => |x - npMedian w|))

/-- The scalar median of the entire stacked window matrix built by the
fast spike engine: row `j` is the window `data[j : j + wn + 1]`, and
`np.median(x_array)` with no axis argument flattens the matrix. -/
def stackedGlobalMedian (data : List ℚ) (wn : ℕ) : ℚ :=
  npMedian (((List.range (data.length - wn)).map
    (fun j => (data.drop j).take (wn + 1))).flatten)

/-- The `'fast'` spike engine of `_calculate_spikes`
(`sqes/core/basic_metrics.py`): stack all windows of size `wn + 1`,
flag the centre sample of each window when its deviation from the
window median exceeds `1.4826·σ·MAD + 1e-9` (only where the threshold is
positive, per the `mask = threshold > 0` guard).  The MAD of a window is
the median of the absolute deviations of its samples from the scalar
`np.median(x_array)` of the whole stacked window matrix — the inner
median in `mad_array` (line 83) carries no `axis` argument, unlike the
per-window `diff_array` on the next line. -/
def fast_trace_spikes (data : List ℚ) (wn : ℕ) (sigma : ℚ) : ℕ :=
  let window_size := wn + 1
  let start_index := window_size / 2
  let vert_idx_list := List.range (data.length - wn)
  vert_idx_list.countP (fun j =>
    let w := (data.drop j).take window_size
    let mad := npMedian (w.map (fun x => |x - stackedGlobalMedian data wn|))
    let x_mean := npMedian w
    let difference := |data.getD (start_index + j) 0 - x_mean|
    let threshold := 1.4826 * sigma * mad + 1e-9
    decide (0 < threshold ∧ threshold < difference))

/-- The `'efficient'` spike engine of `_calculate_spikes`: centred
rolling median/MAD of odd window size `wn + 1` (for even `wn`) with
`min_periods` equal to the window, restricted to the central valid
region `[half_window, len − half_window)`.  Every window in that region
is full, so with NaN-free samples the source's `isna` guards never
exclude anything. -/
def efficient_trace_spikes (data : List ℚ) (wn : ℕ) (sigma : ℚ) : ℕ :=
  let wn_odd := if wn % 2 = 0 then wn + 1 else wn
  let half_window := wn_odd / 2
  (List.range' half_window (data.length - 2 * half_window)).countP (fun i =>
    let w := (data.drop (i - half_window)).take wn_odd
    let x_median := npMedian w
    let x_mad := madOf w
    let difference := |data.getD i 0 - x_median|
    let threshold := 1.4826 * sigma * x_mad + 1e-9
    decide (threshold < difference))

/-- `_calculate_spikes(st, wn, sigma, method)`: total spike count over
the traces, skipping traces shorter than `2·wn`; any method other than
`'efficient'` selects the `'fast'` engine. -/
def calculate_spikes (st : Stream) (wn : ℕ) (sigma : ℚ) (method : String) : ℕ :=
  st.foldl
    (fun acc tr =>
      if tr.data.length < wn * 2 then acc
      else if method = "efficient" then acc + efficient_trace_spikes tr.data wn sigma
      else acc + fast_trace_spikes tr.data wn sigma)
    0

/-- A 1000-sample zero trace with a single `+100` sample at index 500. -/
def spikeTrace500 : List ℚ :=
  List.replicate 500 0 ++ 100 :: List.replicate 499 0

/-- A 1000-sample zero trace with a single `+100` sample at index 10
(inside the `w/2` edge zone). -/
def spikeTrace10 : List ℚ :=
  List.replicate 10 0 ++ 100 :: List.replicate 989 0

/-- A 400-sample step trace: 200 zeros, then 200 samples of value 1000
with the sample at index 300 replaced by a 2000-valued spike. -/
def stepTrace : List ℚ :=
  List.replicate 200 0 ++ (List.replicate 100 1000 ++ 2000 :: List.replicate 99 1000)

/-- The metric dictionary returned by `process_basic_metrics`. -/
structure BasicMetrics where
  rms : ℝ
  ratioamp : ℚ
  psdata : ℚ
  ngap : ℕ
  nover : ℕ
  num_spikes : ℕ

/-- `process_basic_metrics(data, day_start_time, day_end_time,
spike_method)` of `sqes/core/basic_metrics.py`: RMS clamped at 99999,
amplitude ratio from the absolute amplitude extremes, availability
against the fixed window, gap/overlap counts, and the spike count with
`w = 80`, `σ = 10`. -/
noncomputable def process_basic_metrics (data : Stream) (day_start_time day_end_time : ℚ)
    (spike_method : String) : BasicMetrics :=
  let st := data
  let rms0 := calculate_rms st
  let rms := if rms0 > 99999 then (99999 : ℝ) else rms0
  let amp := stream_amplitude st
  let ratioamp := calculate_ratioamp (amp.map (fun p => |p.2|)) (amp.map (fun p => |p.1|))
  let psdata := percent_availability st day_start_time day_end_time
  let go := gaps_overlaps st
  let num_spikes := calculate_spikes st 80 10 spike_method
  { rms := rms, ratioamp := ratioamp, psdata := psdata,
    ngap := go.1, nover := go.2, num_spikes := num_spikes }

/-! ## Noise-model library (`sqes/core/models.py`) -/

/-- NHNM period break points `Ph` (Peterson, 1993), as in `get_models`. -/
def Ph : List ℚ :=
  [0.10, 0.22, 0.32, 0.80, 3.80, 4.60, 6.30, 7.90, 15.40, 20.00, 354.80, 100000.00]

/-- NHNM intercepts `Ah`. -/
def Ah : List ℚ :=
  [-108.73, -150.34, -122.31, -116.85, -108.48, -74.66, 0.66, -93.37, 73.54,
   -151.52, -206.66]

/-- NHNM slopes `Bh`. -/
def Bh : List ℚ :=
  [-17.23, -80.50, -23.87, 32.51, 18.08, -32.95, -127.18, -22.42, -162.98,
   10.01, 31.63]

/-- NLNM period break points `Pl`. -/
def Pl : List ℚ :=
  [0.10, 0.17, 0.40, 0.80, 1.24, 2.40, 4.30, 5.00, 6.00, 10.00, 12.00, 15.60,
   21.90, 31.60, 45.00, 70.00, 101.00, 154.00, 328.00, 600.00, 10000.00,
   100000.00]

/-- NLNM intercepts `Al`. -/
def Al : List ℚ :=
  [-162.36, -166.7, -170.00, -166.40, -168.60, -159.98, -141.10, -71.36,
   -97.26, -132.18, -205.27, -37.65, -114.37, -160.58, -187.50, -216.47,
   -185.00, -168.34, -217.43, -258.28, -346.88]

/-- NLNM slopes `Bl`. -/
def Bl : List ℚ :=
  [5.64, 0.00, -8.30, 28.90, 52.48, 29.81, 0.00, -99.77, -66.49, -31.57,
   36.16, -104.33, -47.10, -16.28, 0.00, 15.70, 0.00, -7.61, 11.90, 26.60,
   48.75]

/-- The index selection
`[i for i, x in enumerate([period > Ph][0]) if x][-1]` of `get_models`:
the last (largest) index whose table entry lies strictly below the
period, scanning with explicit position `i`; `none` embeds the
`IndexError` raised by `[-1]` on an empty selection. -/
def lastIndexGTAux (p : ℚ) : List ℚ → ℕ → Option ℕ
  | [], _ => none
  | t :: rest, i =>
    match lastIndexGTAux p rest (i + 1) with
    | some k => some k
    | none => if p > t then some i else none

/-- The last index `k` of `tbl` with `p > tbl[k]`. -/
def lastIndexGT (p : ℚ) (tbl : List ℚ) : Option ℕ := lastIndexGTAux p tbl 0

/-- The NHNM value `Ah[highInd] + Bh[highInd]·log10(period)` computed by
`get_models` for an in-range period. -/
noncomputable def nhnmVal (p : ℚ) : ℝ :=
  match lastIndexGT p Ph with
  | some highInd => (Ah.getD highInd 0 : ℝ) + (Bh.getD highInd 0 : ℝ) * Real.logb 10 (p : ℝ)
  | none => 0

/-- The NLNM value `Al[lowInd] + Bl[lowInd]·log10(period)`. -/
noncomputable def nlnmVal (p : ℚ) : ℝ :=
  match lastIndexGT p Pl with
  | some lowInd => (Al.getD lowInd 0 : ℝ) + (Bl.getD lowInd 0 : ℝ) * Real.logb 10 (p : ℝ)
  | none => 0

/-- A period inside the tabulated Peterson range: strictly above the
smallest break point (0.1 s) and at most the largest (100 000 s). -/
def modelInRange (p : ℚ) : Bool := decide (1/10 < p ∧ p ≤ 100000)

/-- The body of the `get_models` loop for one period: `none` when the
segment lookup raises (`IndexError` from the empty selection) or lands
past the last `Ah`/`Al` segment (the `highInd >= len(Ah) or lowInd >=
len(Al)` guard), otherwise the NHNM and NLNM values of the period. -/
noncomputable def model_step (p : ℚ) : Option (ℝ × ℝ) :=
  match lastIndexGT p Ph, lastIndexGT p Pl with
  | some highInd, some lowInd =>
    if Ah.length ≤ highInd ∨ Al.length ≤ lowInd then none
    else
      some ((Ah.getD highInd 0 : ℝ) + (Bh.getD highInd 0 : ℝ) * Real.logb 10 (p : ℝ),
            (Al.getD lowInd 0 : ℝ) + (Bl.getD lowInd 0 : ℝ) * Real.logb 10 (p : ℝ))
  | _, _ => none

/-- The loop of `get_models` with its running period index `pInd`:
skipped periods contribute nothing, the rest contribute one NHNM value,
one NLNM value and their index. -/
noncomputable def get_models_aux : List ℚ → ℕ → List ℝ × List ℝ × List ℕ
  | [], _ => ([], [], [])
  | p :: rest, pInd =>
    let r := get_models_aux rest (pInd + 1)
    match model_step p with
    | some v => (v.1 :: r.1, v.2 :: r.2.1, pInd :: r.2.2)
    | none => r

/-- `get_models(periods, powers)` of `sqes/core/models.py` (the `powers`
argument is unused by the source). -/
noncomputable def get_models (periods : List ℚ) : List ℝ × List ℝ × List ℕ :=
  get_models_aux periods 0

/-- The default detail row written by `insert_default_qc_detail`
(`pct_above = 100`, `pct_below = 0`, all PPSD fields zero) for a sample
station, used to exercise the dialect read branches. -/
def C2row : DetailMetrics :=
  { id_kode := "AAI_Z_20240101", kode := "AAI", tgl := "20240101", cha := "BHZ",
    rms := 0, ratioamp := 0, psdata := 0, ngap := 1, nover := 0, num_spikes := 0,
    pctH := 100, pctL := 0, dcl := 0, dcg := 0,
    long_period := 0, microseism := 0, short_period := 0 }

/-- A healthy detail row (`avail = 95`, high `pctH`) on which the mysql
and postgresql read branches derive different warning messages. -/
def C2rowB : DetailMetrics :=
  { id_kode := "AAI_Z_20240101", kode := "AAI", tgl := "20240101", cha := "BHZ",
    rms := 100, ratioamp := 1, psdata := 95, ngap := 0, nover := 0, num_spikes := 0,
    pctH := 25, pctL := 0, dcl := 10, dcg := 0,
    long_period := 0, microseism := 0, short_period := 0 }

/-! ## Station worker (`sqes/workflows/station_processor.py`) -/

/-- The `basic_metrics_dict` assembled by the worker after a successful
`process_basic_metrics` call (step 4): the rounded/stringified values,
kept here as their numeric content. -/
structure BasicMetricsDict where
  rms : ℚ
  ratioamp : ℚ
  psdata : ℚ
  ngap : ℤ
  nover : ℤ
  num_spikes : ℤ
deriving DecidableEq, Repr

/-- The `final_metrics` dictionary returned by a successful
`process_ppsd_metrics` call (treated as opaque data by the worker). -/
structure PPSDDict where
  pctH : ℚ
  pctL : ℚ
  dcl : ℚ
  dcg : ℚ
  long_period : ℚ
  microseism : ℚ
  short_period : ℚ
deriving DecidableEq, Repr

/-- Outcome of the PPSD stage (step 6): `TimeoutError`, any other
exception, a `None` result, or the metric dictionary. -/
inductive PPSDOutcome where
  | timeout : PPSDOutcome
  | err : PPSDOutcome
  | nullResult : PPSDOutcome
  | ok : PPSDDict → PPSDOutcome
deriving DecidableEq, Repr

/-- `insert_default_qc_detail(id_kode, kode, tgl, cha, metrics)` of
`sqes/services/repository.py`: a detail row carrying the given basic
metrics and the default PPSD values
(`'100', '0', '0', '0', '0', '0', '0'`). -/
def insert_default_qc_detail (id_kode kode tgl cha : String)
    (m : BasicMetricsDict) : List DBVal :=
  insert_detail_values
    { id_kode := id_kode, kode := kode, tgl := tgl, cha := cha,
      rms := m.rms, ratioamp := m.ratioamp, psdata := m.psdata,
      ngap := (m.ngap : ℚ), nover := (m.nover : ℚ), num_spikes := (m.num_spikes : ℚ),
      pctH := 100, pctL := 0, dcl := 0, dcg := 0,
      long_period := 0, microseism := 0, short_period := 0 }

/-- `insert_qc_detail(all_metrics)` with
`all_metrics = {ids, **basic_metrics_dict, **final_metrics}` (step 8). -/
def insert_full_qc_detail (id_kode kode tgl cha : String)
    (m : BasicMetricsDict) (f : PPSDDict) : List DBVal :=
  insert_detail_values
    { id_kode := id_kode, kode := kode, tgl := tgl, cha := cha,
      rms := m.rms, ratioamp := m.ratioamp, psdata := m.psdata,
      ngap := (m.ngap : ℚ), nover := (m.nover : ℚ), num_spikes := (m.num_spikes : ℚ),
      pctH := f.pctH, pctL := f.pctL, dcl := f.dcl, dcg := f.dcg,
      long_period := f.long_period, microseism := f.microseism,
      short_period := f.short_period }

/-- Steps 5-8 of the per-component loop of `process_station_data`,
starting right after a successful basic-metric computation.  The "High
Gap Check" of step 5 exists in the source only as a commented-out block,
so control falls through to the PPSD stage (step 6) regardless of
`ngap`.  Returns whether the PPSD stage was entered together with the
detail row written: the default-PPSD row on timeout/exception/`None`
(`log_default_and_continue` with the basic metrics), the full row
otherwise. -/
def component_after_basic_metrics (id_kode kode tgl cha : String)
    (basic_metrics_dict : BasicMetricsDict) (ppsd : PPSDOutcome) : Bool × List DBVal :=
  match ppsd with
  | .timeout => (true, insert_default_qc_detail id_kode kode tgl cha basic_metrics_dict)
  | .err => (true, insert_default_qc_detail id_kode kode tgl cha basic_metrics_dict)
  | .nullResult => (true, insert_default_qc_detail id_kode kode tgl cha basic_metrics_dict)
  | .ok final_metrics =>
    (true, insert_full_qc_detail id_kode kode tgl cha basic_metrics_dict final_metrics)

/-- A basic-metric dictionary with a gap count above 2000. -/
def C1basic : BasicMetricsDict :=
  { rms := 1, ratioamp := 1, psdata := 50, ngap := 2001, nover := 0, num_spikes := 0 }

/-- A successful PPSD result whose fields differ from the defaults. -/
def C1ppsd : PPSDDict :=
  { pctH := 10, pctL := 5, dcl := 3, dcg := 0, long_period := 1, microseism := 2,
    short_period := 3 }

/-! ## Daily processing loop (`sqes/workflows/daily_processor.py`) -/

/-- The database answers the completion check of `run_single_day`
consults on each pass: the number of stations still pending processing
and the number pending analysis. -/
structure DailyOracle where
  pendingProcess : ℕ → ℕ
  pendingAnalysis : ℕ → ℕ

/-- Observable outcome of one `run_single_day` call: how many passes of
the `while` loop ran and how often `flush_daily_data` was invoked. -/
structure DailyRunResult where
  passes : ℕ
  flushes : ℕ
deriving DecidableEq, Repr

/-- The `while run_trigger > 0 or run_trigger == -1` loop of
`run_single_day`: flush when the flag is still set (then clear it), run
the workers and the straggler analysis (not part of the counted
events), then either force exit for filtered runs or re-enter when the
completion check reports pending work, with the 5-pass safety cap.  The
fuel argument strictly exceeds the safety cap, so it never runs out. -/
def daily_loop (o : DailyOracle) (stations network : List String) :
    ℕ → ℤ → Bool → ℕ → ℕ → DailyRunResult
  | 0, _, _, passes, flushes => ⟨passes, flushes⟩
  | fuel + 1, run_trigger, flush, passes, flushes =>
    if run_trigger > 0 ∨ run_trigger = -1 then
      daily_loop o stations network fuel
        (if stations ≠ [] ∨ network ≠ [] then 0
         else if 0 < o.pendingProcess passes ∨ 0 < o.pendingAnalysis passes then
           (if run_trigger + 1 ≥ 5 then 0 else run_trigger + 1)
         else 0)
        (if flush then false else flush)
        (passes + 1)
        (if flush then flushes + 1 else flushes)
    else ⟨passes, flushes⟩

/-- `run_single_day(date_str, ppsd, flush, mseed, ..., stations,
network)` reduced to its loop-control behaviour: `run_trigger` starts at
`-1` when a stations or network filter is supplied ("Special flag to run
once and exit") and at `1` otherwise. -/
def run_single_day (o : DailyOracle) (stations network : List String)
    (flush : Bool) : DailyRunResult :=
  daily_loop o stations network 6
    (if stations ≠ [] ∨ network ≠ [] then -1 else 1) flush 0 0

/-- The oracle of an empty database: nothing pending. -/
def C10oracle : DailyOracle := ⟨fun _ => 0, fun _ => 0⟩

/-! ## Lemmas and claim theorems -/

theorem halfEvenRound_nonneg {q : ℚ} (h : 0 ≤ q) : 0 ≤ halfEvenRound q := by
  unfold halfEvenRound
  have hf : (0:ℤ) ≤ ⌊q⌋ := Int.floor_nonneg.mpr h
  dsimp only
  split
  · exact hf
  · split
    · omega
    · split <;> omega

theorem halfEvenRound_le_ceil (q : ℚ) : halfEvenRound q ≤ ⌈q⌉ := by
  unfold halfEvenRound
  dsimp only
  have h1 : (⌊q⌋ : ℤ) ≤ ⌈q⌉ := Int.floor_le_ceil q
  split
  · exact h1
  · rename_i hlt
    push_neg at hlt
    have hflt : (⌊q⌋ : ℚ) < q := by
      rcases lt_or_eq_of_le (Int.floor_le q) with h | h
      · exact h
      · exfalso
        rw [← h] at hlt
        norm_num at hlt
    have hceil : ⌊q⌋ + 1 ≤ ⌈q⌉ := by
      by_contra hcon
      push_neg at hcon
      have h4 : (⌈q⌉ : ℚ) ≤ (⌊q⌋ : ℚ) := by exact_mod_cast Int.lt_add_one_iff.mp hcon
      have h5 : q ≤ (⌈q⌉ : ℚ) := Int.le_ceil q
      linarith
    split
    · omega
    · split <;> omega

theorem round2_nonneg {q : ℚ} (h : 0 ≤ q) : 0 ≤ round2 q := by
  unfold round2
  have := halfEvenRound_nonneg (q := q * 100) (by positivity)
  positivity

theorem round2_le_of_le {q c : ℚ} {n : ℤ} (hc : (n : ℚ) = c * 100) (h : q ≤ c) :
    round2 q ≤ c := by
  unfold round2
  have h1 : halfEvenRound (q * 100) ≤ ⌈q * 100⌉ := halfEvenRound_le_ceil _
  have h2 : ⌈q * 100⌉ ≤ n := by
    rw [Int.ceil_le, hc]
    nlinarith
  have h3 : (halfEvenRound (q * 100) : ℚ) ≤ (n : ℚ) := by exact_mod_cast le_trans h1 h2
  rw [hc] at h3
  linarith


theorem foldl_max_le {c a : ℚ} {l : List ℚ} (ha : a ≤ c) (hl : ∀ x ∈ l, x ≤ c) :
    l.foldl max a ≤ c := by
  induction l generalizing a with
  | nil => exact ha
  | cons b t ih =>
    exact ih (max_le ha (hl b (by simp))) (fun x hx => hl x (by simp [hx]))

theorem le_foldl_max (l : List ℚ) (a : ℚ) : a ≤ l.foldl max a := by
  induction l generalizing a with
  | nil => exact le_refl a
  | cons b t ih => exact le_trans (le_max_left a b) (ih (max a b))

theorem mem_le_foldl_max {x : ℚ} {l : List ℚ} (a : ℚ) (hx : x ∈ l) :
    x ≤ l.foldl max a := by
  induction l generalizing a with
  | nil => cases hx
  | cons b t ih =>
    rcases List.mem_cons.mp hx with h | h
    · subst h
      exact le_trans (le_max_right a x) (le_foldl_max t _)
    · exact ih _ h

theorem foldl_min_le_init (l : List ℚ) (a : ℚ) : l.foldl min a ≤ a := by
  induction l generalizing a with
  | nil => exact le_refl a
  | cons b t ih => exact le_trans (ih (min a b)) (min_le_left a b)

theorem foldl_min_le_mem {x : ℚ} {l : List ℚ} (a : ℚ) (hx : x ∈ l) :
    l.foldl min a ≤ x := by
  induction l generalizing a with
  | nil => cases hx
  | cons b t ih =>
    rcases List.mem_cons.mp hx with h | h
    · subst h
      exact le_trans (foldl_min_le_init t (min a x)) (min_le_right a x)
    · exact ih _ h

theorem foldl_max_comm (l : List ℚ) (a b : ℚ) :
    l.foldl max (max a b) = max a (l.foldl max b) := by
  induction l generalizing b with
  | nil => rfl
  | cons c t ih =>
    show t.foldl max (max (max a b) c) = max a ((c :: t).foldl max b)
    rw [max_assoc, ih (max b c)]
    rfl

theorem endtime_le_streamEnd {tr : Trace} {st : Stream} (h : tr ∈ st) :
    tr.endtime ≤ streamEnd st := by
  cases st with
  | nil => cases h
  | cons t rest =>
    rcases List.mem_cons.mp h with h | h
    · subst h
      exact le_foldl_max _ _
    · exact mem_le_foldl_max _ (List.mem_map_of_mem Trace.endtime h)

theorem streamEnd_le {st : Stream} {c : ℚ} (hne : st ≠ [])
    (h : ∀ tr ∈ st, tr.endtime ≤ c) : streamEnd st ≤ c := by
  cases st with
  | nil => exact absurd rfl hne
  | cons t rest =>
    refine foldl_max_le (h t (by simp)) ?_
    intro x hx
    rcases List.mem_map.mp hx with ⟨tr, htr, hxe⟩
    exact hxe ▸ h tr (by simp [htr])

theorem streamStart_le_mem {tr : Trace} {st : Stream} (h : tr ∈ st) :
    streamStart st ≤ tr.starttime := by
  cases st with
  | nil => cases h
  | cons t rest =>
    rcases List.mem_cons.mp h with h | h
    · subst h
      exact foldl_min_le_init _ _
    · exact foldl_min_le_mem _ (List.mem_map_of_mem Trace.starttime h)

theorem filter_pos_sum_cons (d : ℚ) (ds : List ℚ) :
    ((d :: ds).filter (fun x => 0 < x)).sum
      = (if 0 < d then d else 0) + (ds.filter (fun x => 0 < x)).sum := by
  by_cases hd : 0 < d
  · rw [if_pos hd, List.filter_cons_of_pos (by simpa using hd), List.sum_cons]
  · rw [if_neg hd, List.filter_cons_of_neg (by simpa using hd), zero_add]

theorem posGapSum_le_span : ∀ (rest : Stream) (t : Trace),
    (∀ tr ∈ t :: rest, tr.starttime ≤ tr.endtime) →
    List.Sorted (fun a b : Trace => a.starttime ≤ b.starttime) (t :: rest) →
    ((gapDeltas (t :: rest)).filter (fun d => 0 < d)).sum
      ≤ streamEnd (t :: rest) - t.starttime := by
  intro rest
  induction rest with
  | nil =>
    intro t hwf _
    simp only [gapDeltas, List.filter_nil, List.sum_nil, streamEnd, List.map_nil,
      List.foldl_nil]
    have := hwf t (by simp)
    linarith
  | cons u rs ih =>
    intro t hwf hsort
    have hts : t.starttime ≤ u.starttime := by
      rcases List.sorted_cons.mp hsort with ⟨hall, _⟩
      exact hall u (by simp)
    have hsort2 : List.Sorted (fun a b : Trace => a.starttime ≤ b.starttime) (u :: rs) :=
      (List.sorted_cons.mp hsort).2
    have hwf2 : ∀ tr ∈ u :: rs, tr.starttime ≤ tr.endtime :=
      fun tr htr => hwf tr (by simp [List.mem_cons.mp htr])
    have hIH := ih u hwf2 hsort2
    have hEnd : streamEnd (t :: u :: rs) = max t.endtime (streamEnd (u :: rs)) := by
      show (List.map Trace.endtime (u :: rs)).foldl max t.endtime = _
      rw [List.map_cons, List.foldl_cons, foldl_max_comm]
      rfl
    have hgd : gapDeltas (t :: u :: rs)
        = (u.starttime - t.endtime) :: gapDeltas (u :: rs) := rfl
    rw [hgd, filter_pos_sum_cons, hEnd]
    have hte : t.starttime ≤ t.endtime := hwf t (by simp)
    have h1 : streamEnd (u :: rs) ≤ max t.endtime (streamEnd (u :: rs)) :=
      le_max_right _ _
    by_cases hd : 0 < u.starttime - t.endtime
    · rw [if_pos hd]
      linarith
    · rw [if_neg hd]
      linarith

theorem percent_availability_bounds (st : Stream) (t0 t1 : ℚ)
    (hwf : ∀ tr ∈ st, tr.starttime ≤ tr.endtime) :
    0 ≤ percent_availability st t0 t1 ∧ percent_availability st t0 t1 ≤ 100 := by
  unfold percent_availability
  split_ifs with hne htot hspan
  · norm_num
  · norm_num
  · norm_num
  push_neg at htot hspan
  have hperm : List.Perm (streamSorted st) st := List.perm_insertionSort _ st
  have hsorted : List.Sorted (fun a b : Trace => a.starttime ≤ b.starttime)
      (streamSorted st) := List.sorted_insertionSort _ st
  have hsne : streamSorted st ≠ [] := by
    intro h0
    exact hne ((h0 ▸ hperm).symm.eq_nil)
  obtain ⟨s, srest, hs⟩ := List.exists_cons_of_ne_nil hsne
  have hwfs : ∀ tr ∈ s :: srest, tr.starttime ≤ tr.endtime := by
    intro tr htr
    exact hwf tr (hperm.mem_iff.mp (hs ▸ htr))
  have hbound := posGapSum_le_span srest s hwfs (hs ▸ hsorted)
  have hEndle : streamEnd (s :: srest) ≤ streamEnd st := by
    refine streamEnd_le (by simp) ?_
    intro tr htr
    exact endtime_le_streamEnd (hperm.mem_iff.mp (hs ▸ htr))
  have hStartle : streamStart st ≤ s.starttime :=
    streamStart_le_mem (hperm.mem_iff.mp (hs ▸ List.mem_cons_self s srest))
  have hgaps : ((get_gaps st).filter (fun d => 0 < d)).sum
      ≤ streamEnd st - streamStart st := by
    have : get_gaps st = gapDeltas (s :: srest) := by rw [get_gaps, hs]
    rw [this]
    linarith
  have hfrac : 0 ≤ 100 * ((streamEnd st - streamStart st
      - ((get_gaps st).filter (fun d => 0 < d)).sum) / (t1 - t0)) := by
    have hnum : 0 ≤ streamEnd st - streamStart st
        - ((get_gaps st).filter (fun d => 0 < d)).sum := by linarith
    positivity
  constructor
  · exact le_min (by norm_num) (round2_nonneg hfrac)
  · exact min_le_left _ _

theorem calculate_ratioamp_cases (amp : Option (ℚ × ℚ)) :
    1 ≤ calculate_ratioamp (amp.map (fun p => |p.2|)) (amp.map (fun p => |p.1|)) ∨
    calculate_ratioamp (amp.map (fun p => |p.2|)) (amp.map (fun p => |p.1|)) = 0 := by
  cases amp with
  | none =>
    right
    show min 0 99999 = 0
    norm_num
  | some p =>
    left
    show 1 ≤ min (if |p.1| = 0 ∨ |p.2| = 0 then 1
      else if |p.1| > |p.2| then |p.1| / |p.2| else |p.2| / |p.1|) 99999
    refine le_min ?_ (by norm_num)
    by_cases h0 : |p.1| = 0 ∨ |p.2| = 0
    · rw [if_pos h0]
    · rw [if_neg h0]
      push_neg at h0
      have h1 : 0 < |p.1| := lt_of_le_of_ne (abs_nonneg _) (Ne.symm h0.1)
      have h2 : 0 < |p.2| := lt_of_le_of_ne (abs_nonneg _) (Ne.symm h0.2)
      by_cases hgt : |p.1| > |p.2|
      · rw [if_pos hgt]
        rw [le_div_iff₀ h2]
        linarith
      · rw [if_neg hgt]
        push_neg at hgt
        rw [le_div_iff₀ h1]
        linarith

/-- C7: for every input stream of well-formed traces (each trace's end
time at or after its start time, as obspy guarantees for traces with
samples) and every day window, `process_basic_metrics` yields
`0 ≤ availability ≤ 100`, non-negative gap, overlap and spike counts,
and an amplitude ratio that is either at least 1.0 or exactly 0.0. -/
theorem C7_basic_metrics_invariants (data : Stream) (t0 t1 : ℚ) (method : String)
    (hwf : ∀ tr ∈ data, tr.starttime ≤ tr.endtime) :
    0 ≤ (process_basic_metrics data t0 t1 method).psdata ∧
    (process_basic_metrics data t0 t1 method).psdata ≤ 100 ∧
    0 ≤ ((process_basic_metrics data t0 t1 method).ngap : ℤ) ∧
    0 ≤ ((process_basic_metrics data t0 t1 method).nover : ℤ) ∧
    0 ≤ ((process_basic_metrics data t0 t1 method).num_spikes : ℤ) ∧
    (1 ≤ (process_basic_metrics data t0 t1 method).ratioamp ∨
      (process_basic_metrics data t0 t1 method).ratioamp = 0) := by
  have hav := percent_availability_bounds data t0 t1 hwf
  have hr := calculate_ratioamp_cases (stream_amplitude data)
  simp only [process_basic_metrics]
  exact ⟨hav.1, hav.2, Int.natCast_nonneg _, Int.natCast_nonneg _,
    Int.natCast_nonneg _, hr⟩

/-- C7 witness: the invariants instantiated on a one-trace stream over a
full day window. -/
theorem C7_witness :
    0 ≤ (process_basic_metrics [⟨0, 86400, [0, 1, 2]⟩] 0 86400 "fast").psdata ∧
    (process_basic_metrics [⟨0, 86400, [0, 1, 2]⟩] 0 86400 "fast").psdata ≤ 100 :=
  ⟨(C7_basic_metrics_invariants [⟨0, 86400, [0, 1, 2]⟩] 0 86400 "fast"
      (by intro tr htr; rw [List.mem_singleton] at htr; subst htr; norm_num)).1,
   (C7_basic_metrics_invariants [⟨0, 86400, [0, 1, 2]⟩] 0 86400 "fast"
      (by intro tr htr; rw [List.mem_singleton] at htr; subst htr; norm_num)).2.1⟩

theorem getD_nonneg {l : List ℚ} (h : ∀ x ∈ l, 0 ≤ x) :
    ∀ i : ℕ, 0 ≤ l.getD i 0 := by
  induction l with
  | nil => intro i; simp [List.getD]
  | cons a t ih =>
    intro i
    cases i with
    | zero => simpa using h a (by simp)
    | succ n =>
      show 0 ≤ t.getD n 0
      exact ih (fun x hx => h x (by simp [hx])) n

theorem npMedian_nonneg {l : List ℚ} (h : ∀ x ∈ l, 0 ≤ x) : 0 ≤ npMedian l := by
  have hs : ∀ x ∈ npSorted l, 0 ≤ x := fun x hx =>
    h x ((List.perm_insertionSort _ l).subset hx)
  unfold npMedian
  split
  · exact getD_nonneg hs _
  · have h1 := getD_nonneg hs (l.length / 2 - 1)
    have h2 := getD_nonneg hs (l.length / 2)
    dsimp only [npSorted] at h1 h2 ⊢
    linarith

theorem madOf_nonneg (w : List ℚ) : 0 ≤ madOf w := by
  refine npMedian_nonneg ?_
  intro x hx
  rcases List.mem_map.mp hx with ⟨y, _, hxy⟩
  exact hxy ▸ abs_nonneg _

theorem spike_threshold_pos (w : List ℚ) :
    0 < 1.4826 * 10 * madOf w + 1e-9 := by
  have := madOf_nonneg w
  nlinarith

theorem two_value_perm : ∀ (w : List ℚ), (∀ x ∈ w, x = 0 ∨ x = 100) →
    List.Perm w (List.replicate (w.count 0) 0 ++ List.replicate (w.count 100) 100) := by
  intro w
  induction w with
  | nil => intro _; simp
  | cons a t ih =>
    intro h
    have ht := ih (fun x hx => h x (by simp [hx]))
    rcases h a (by simp) with ha | ha
    · subst ha
      have hc0 : ((0 : ℚ) :: t).count 0 = t.count 0 + 1 := by
        simp [List.count_cons]
      have hc1 : ((0 : ℚ) :: t).count 100 = t.count 100 := by
        simp [List.count_cons]
      rw [hc0, hc1, List.replicate_succ]
      exact ht.cons 0
    · subst ha
      have hc0 : ((100 : ℚ) :: t).count 0 = t.count 0 := by
        simp [List.count_cons]
      have hc1 : ((100 : ℚ) :: t).count 100 = t.count 100 + 1 := by
        simp [List.count_cons]
      rw [hc0, hc1, List.replicate_succ]
      exact (ht.cons 100).trans List.perm_middle.symm

theorem two_value_count_length {w : List ℚ} (h : ∀ x ∈ w, x = 0 ∨ x = 100) :
    w.count 0 + w.count 100 = w.length := by
  have := (two_value_perm w h).length_eq
  simp at this
  omega

theorem pairwise_le_replicate (a : ℚ) (n : ℕ) :
    List.Pairwise (· ≤ ·) (List.replicate n a) := by
  induction n with
  | zero => simp
  | succ k ih =>
    rw [List.replicate_succ]
    refine List.Pairwise.cons ?_ ih
    intro b hb
    rw [List.eq_of_mem_replicate hb]

theorem sorted_two_value {w : List ℚ} (h : ∀ x ∈ w, x = 0 ∨ x = 100) :
    npSorted w = List.replicate (w.count 0) 0 ++ List.replicate (w.count 100) 100 := by
  have hperm : List.Perm (npSorted w)
      (List.replicate (w.count 0) 0 ++ List.replicate (w.count 100) 100) :=
    (List.perm_insertionSort _ w).trans (two_value_perm w h)
  have hs1 : List.Sorted (· ≤ ·) (npSorted w) := List.sorted_insertionSort _ w
  have hs2 : List.Sorted (· ≤ ·)
      (List.replicate (w.count 0) (0 : ℚ) ++ List.replicate (w.count 100) (100 : ℚ)) := by
    rw [List.Sorted, List.pairwise_append]
    refine ⟨pairwise_le_replicate 0 _, pairwise_le_replicate 100 _, ?_⟩
    intro x hx y hy
    rw [List.eq_of_mem_replicate hx, List.eq_of_mem_replicate hy]
    norm_num
  exact List.eq_of_perm_of_sorted hperm hs1 hs2

theorem getD_replicate (a d : ℚ) : ∀ (m n : ℕ),
    (List.replicate m a).getD n d = if n < m then a else d := by
  intro m
  induction m with
  | zero => intro n; simp [List.getD]
  | succ k ih =>
    intro n
    cases n with
    | zero => simp [List.replicate_succ, List.getD]
    | succ n2 =>
      rw [List.replicate_succ]
      show (List.replicate k a).getD n2 d = _
      rw [ih n2]
      by_cases hlt : n2 < k
      · rw [if_pos hlt, if_pos (by omega)]
      · rw [if_neg hlt, if_neg (by omega)]

/-- Median and MAD of a full 81-sample window holding at most one
`+100` among zeros: both vanish. -/
theorem window_med_mad {w : List ℚ} (hlen : w.length = 81)
    (hv : ∀ x ∈ w, x = 0 ∨ x = 100) (hc : w.count 100 ≤ 1) :
    npMedian w = 0 ∧ madOf w = 0 := by
  have hcount := two_value_count_length hv
  have hc0 : 80 ≤ w.count 0 := by omega
  have hmed : npMedian w = 0 := by
    unfold npMedian
    rw [if_pos (by rw [hlen])]
    show (npSorted w).getD (w.length / 2) 0 = 0
    rw [sorted_two_value hv, hlen]
    have h40 : (81 : ℕ) / 2 = 40 := by norm_num
    rw [h40, List.getD_append _ _ _ _ (by simp; omega), getD_replicate]
    rw [if_pos (by omega)]
  refine ⟨hmed, ?_⟩
  have hmap : w.map (fun x => |x - npMedian w|) = w := by
    rw [hmed]
    have hid : ∀ x ∈ w, |x - 0| = x := by
      intro x hx
      rcases hv x hx with h | h <;> rw [h] <;> norm_num
    calc w.map (fun x => |x - 0|) = w.map (fun x => x) := List.map_congr_left hid
      _ = w := by simp
  unfold madOf
  rw [hmap, hmed]

theorem spikeTrace500_mem {x : ℚ} (hx : x ∈ spikeTrace500) : x = 0 ∨ x = 100 := by
  unfold spikeTrace500 at hx
  rcases List.mem_append.mp hx with h | h
  · exact Or.inl (List.eq_of_mem_replicate h)
  · rcases List.mem_cons.mp h with h | h
    · exact Or.inr h
    · exact Or.inl (List.eq_of_mem_replicate h)

theorem spikeTrace500_count : spikeTrace500.count 100 = 1 := by
  norm_num [spikeTrace500, List.count_append, List.count_cons, List.count_replicate]

theorem spikeTrace500_getD (k : ℕ) :
    spikeTrace500.getD k 0 = if k = 500 then 100 else 0 := by
  unfold spikeTrace500
  by_cases h1 : k < 500
  · rw [List.getD_append _ _ _ _ (by simp; omega), getD_replicate,
      if_pos h1, if_neg (by omega)]
  · push_neg at h1
    rw [List.getD_append_right _ _ _ _ (by simp; omega)]
    simp only [List.length_replicate]
    by_cases h2 : k = 500
    · subst h2
      norm_num [List.getD]
    · have hk : k - 500 = (k - 501) + 1 := by omega
      rw [hk, if_neg h2]
      show (List.replicate 499 (0 : ℚ)).getD (k - 501) 0 = 0
      rw [getD_replicate]
      split <;> rfl

theorem spikeTrace10_mem {x : ℚ} (hx : x ∈ spikeTrace10) : x = 0 ∨ x = 100 := by
  unfold spikeTrace10 at hx
  rcases List.mem_append.mp hx with h | h
  · exact Or.inl (List.eq_of_mem_replicate h)
  · rcases List.mem_cons.mp h with h | h
    · exact Or.inr h
    · exact Or.inl (List.eq_of_mem_replicate h)

theorem spikeTrace10_count : spikeTrace10.count 100 = 1 := by
  norm_num [spikeTrace10, List.count_append, List.count_cons, List.count_replicate]

theorem spikeTrace10_getD (k : ℕ) :
    spikeTrace10.getD k 0 = if k = 10 then 100 else 0 := by
  unfold spikeTrace10
  by_cases h1 : k < 10
  · rw [List.getD_append _ _ _ _ (by simp; omega), getD_replicate,
      if_pos h1, if_neg (by omega)]
  · push_neg at h1
    rw [List.getD_append_right _ _ _ _ (by simp; omega)]
    simp only [List.length_replicate]
    by_cases h2 : k = 10
    · subst h2
      norm_num [List.getD]
    · have hk : k - 10 = (k - 11) + 1 := by omega
      rw [hk, if_neg h2]
      show (List.replicate 989 (0 : ℚ)).getD (k - 11) 0 = 0
      rw [getD_replicate]
      split <;> rfl

theorem spikeTrace500_getElemD (k : ℕ) :
    (spikeTrace500[k]?).getD 0 = if k = 500 then 100 else 0 := by
  rw [← List.getD_eq_getElem?_getD]
  exact spikeTrace500_getD k

theorem spikeTrace10_getElemD (k : ℕ) :
    (spikeTrace10[k]?).getD 0 = if k = 10 then 100 else 0 := by
  rw [← List.getD_eq_getElem?_getD]
  exact spikeTrace10_getD k

theorem getD_le {l : List ℚ} {c : ℚ} (hc : 0 ≤ c) (h : ∀ x ∈ l, x ≤ c) :
    ∀ i : ℕ, l.getD i 0 ≤ c := by
  induction l with
  | nil => intro i; simpa [List.getD] using hc
  | cons a t ih =>
    intro i
    cases i with
    | zero => simpa using h a (by simp)
    | succ n =>
      show t.getD n 0 ≤ c
      exact ih (fun x hx => h x (by simp [hx])) n

theorem npMedian_le {l : List ℚ} {c : ℚ} (hc : 0 ≤ c) (h : ∀ x ∈ l, x ≤ c) :
    npMedian l ≤ c := by
  have hs : ∀ x ∈ npSorted l, x ≤ c := fun x hx =>
    h x ((List.perm_insertionSort _ l).subset hx)
  unfold npMedian
  split
  · exact getD_le hc hs _
  · have h1 := getD_le hc hs (l.length / 2 - 1)
    have h2 := getD_le hc hs (l.length / 2)
    dsimp only [npSorted] at h1 h2 ⊢
    linarith

theorem perm_two_replicate {x y : ℚ} (hxy : x ≠ y) {w : List ℚ}
    (hv : ∀ v ∈ w, v = x ∨ v = y) :
    w.Perm (List.replicate (w.count x) x ++ List.replicate (w.count y) y) := by
  rw [List.perm_iff_count]
  intro a
  rw [List.count_append, List.count_replicate, List.count_replicate]
  by_cases hax : a = x
  · subst hax
    rw [if_pos (by simp), if_neg (by simp [beq_iff_eq]; exact Ne.symm hxy)]
    omega
  · by_cases hay : a = y
    · subst hay
      rw [if_neg (by simp [beq_iff_eq]; exact hxy), if_pos (by simp)]
      omega
    · rw [if_neg (by simp [beq_iff_eq]; exact fun h => hax h.symm),
        if_neg (by simp [beq_iff_eq]; exact fun h => hay h.symm)]
      have hnm : a ∉ w := fun hmem => by
        rcases hv a hmem with h | h
        · exact hax h
        · exact hay h
      rw [List.count_eq_zero.mpr hnm]

theorem two_value_count_lengthG {x y : ℚ} (hxy : x ≠ y) {w : List ℚ}
    (hv : ∀ v ∈ w, v = x ∨ v = y) : w.count x + w.count y = w.length := by
  have := (perm_two_replicate hxy hv).length_eq
  rw [List.length_append, List.length_replicate, List.length_replicate] at this
  omega

theorem perm_three_replicate {x y z : ℚ} (hxy : x ≠ y) (hxz : x ≠ z) (hyz : y ≠ z)
    {w : List ℚ} (hv : ∀ v ∈ w, v = x ∨ v = y ∨ v = z) :
    w.Perm (List.replicate (w.count x) x ++
      (List.replicate (w.count y) y ++ List.replicate (w.count z) z)) := by
  rw [List.perm_iff_count]
  intro a
  rw [List.count_append, List.count_append, List.count_replicate, List.count_replicate,
    List.count_replicate]
  by_cases hax : a = x
  · subst hax
    rw [if_pos (by simp), if_neg (by simp [beq_iff_eq]; exact Ne.symm hxy),
      if_neg (by simp [beq_iff_eq]; exact Ne.symm hxz)]
    omega
  · by_cases hay : a = y
    · subst hay
      rw [if_neg (by simp [beq_iff_eq]; exact hxy), if_pos (by simp),
        if_neg (by simp [beq_iff_eq]; exact Ne.symm hyz)]
      omega
    · by_cases haz : a = z
      · subst haz
        rw [if_neg (by simp [beq_iff_eq]; exact hxz), if_neg (by simp [beq_iff_eq]; exact hyz),
          if_pos (by simp)]
        omega
      · rw [if_neg (by simp [beq_iff_eq]; exact fun h => hax h.symm),
          if_neg (by simp [beq_iff_eq]; exact fun h => hay h.symm),
          if_neg (by simp [beq_iff_eq]; exact fun h => haz h.symm)]
        have hnm : a ∉ w := fun hmem => by
          rcases hv a hmem with h | h | h
          · exact hax h
          · exact hay h
          · exact haz h
        rw [List.count_eq_zero.mpr hnm]

theorem npSorted_two_replicate {u v : ℚ} (huv : u ≤ v) {w : List ℚ} {a b : ℕ}
    (hperm : w.Perm (List.replicate a u ++ List.replicate b v)) :
    npSorted w = List.replicate a u ++ List.replicate b v := by
  have hp : List.Perm (npSorted w) (List.replicate a u ++ List.replicate b v) :=
    (List.perm_insertionSort _ w).trans hperm
  have hs1 : List.Sorted (· ≤ ·) (npSorted w) := List.sorted_insertionSort _ w
  have hs2 : List.Sorted (· ≤ ·) (List.replicate a u ++ List.replicate b v) := by
    rw [List.Sorted, List.pairwise_append]
    refine ⟨pairwise_le_replicate u _, pairwise_le_replicate v _, ?_⟩
    intro p hp2 q hq
    rw [List.eq_of_mem_replicate hp2, List.eq_of_mem_replicate hq]
    exact huv
  exact List.eq_of_perm_of_sorted hp hs1 hs2

theorem npSorted_three_replicate {u v z : ℚ} (huv : u ≤ v) (hvz : v ≤ z)
    {w : List ℚ} {a b c : ℕ}
    (hperm : w.Perm (List.replicate a u ++ (List.replicate b v ++ List.replicate c z))) :
    npSorted w = List.replicate a u ++ (List.replicate b v ++ List.replicate c z) := by
  have hp : List.Perm (npSorted w)
      (List.replicate a u ++ (List.replicate b v ++ List.replicate c z)) :=
    (List.perm_insertionSort _ w).trans hperm
  have hs1 : List.Sorted (· ≤ ·) (npSorted w) := List.sorted_insertionSort _ w
  have hs2 : List.Sorted (· ≤ ·)
      (List.replicate a u ++ (List.replicate b v ++ List.replicate c z)) := by
    rw [List.Sorted, List.pairwise_append]
    refine ⟨pairwise_le_replicate u _, ?_, ?_⟩
    · rw [List.pairwise_append]
      refine ⟨pairwise_le_replicate v _, pairwise_le_replicate z _, ?_⟩
      intro p hp2 q hq
      rw [List.eq_of_mem_replicate hp2, List.eq_of_mem_replicate hq]
      exact hvz
    · intro p hp2 q hq
      rw [List.eq_of_mem_replicate hp2]
      rcases List.mem_append.mp hq with h | h
      · rw [List.eq_of_mem_replicate h]; exact huv
      · rw [List.eq_of_mem_replicate h]; exact huv.trans hvz
  exact List.eq_of_perm_of_sorted hp hs1 hs2

theorem npMedian_two_replicate_left {u v : ℚ} (huv : u ≤ v) {w : List ℚ} {a b : ℕ}
    (hperm : w.Perm (List.replicate a u ++ List.replicate b v))
    (hodd : w.length % 2 = 1) (hmaj : w.length / 2 < a) : npMedian w = u := by
  unfold npMedian
  rw [if_pos hodd]
  show (npSorted w).getD (w.length / 2) 0 = u
  rw [npSorted_two_replicate huv hperm,
    List.getD_append _ _ _ _ (by rw [List.length_replicate]; exact hmaj), getD_replicate,
    if_pos hmaj]

theorem npMedian_two_replicate_right {u v : ℚ} (huv : u ≤ v) {w : List ℚ} {a b : ℕ}
    (hperm : w.Perm (List.replicate a u ++ List.replicate b v))
    (hodd : w.length % 2 = 1) (hlow : a ≤ w.length / 2) : npMedian w = v := by
  have hlen : w.length = a + b := by
    have := hperm.length_eq
    rw [List.length_append, List.length_replicate, List.length_replicate] at this
    exact this
  unfold npMedian
  rw [if_pos hodd]
  show (npSorted w).getD (w.length / 2) 0 = v
  rw [npSorted_two_replicate huv hperm,
    List.getD_append_right _ _ _ _ (by rw [List.length_replicate]; exact hlow),
    List.length_replicate, getD_replicate, if_pos (by omega)]

theorem npMedian_two_replicate_even_low {u v : ℚ} (huv : u ≤ v) {w : List ℚ} {a b : ℕ}
    (hperm : w.Perm (List.replicate a u ++ List.replicate b v))
    (heven : w.length % 2 = 0) (hmaj : w.length / 2 < a) : npMedian w = u := by
  unfold npMedian
  rw [if_neg (by omega)]
  show ((npSorted w).getD (w.length / 2 - 1) 0 + (npSorted w).getD (w.length / 2) 0) / 2 = u
  rw [npSorted_two_replicate huv hperm,
    List.getD_append _ _ _ _ (by rw [List.length_replicate]; omega),
    List.getD_append _ _ _ _ (by rw [List.length_replicate]; exact hmaj),
    getD_replicate, getD_replicate, if_pos (by omega), if_pos hmaj]
  ring

theorem npMedian_three_replicate_boundary {u v z : ℚ} (huv : u ≤ v) (hvz : v ≤ z)
    {w : List ℚ} {a b c : ℕ}
    (hperm : w.Perm (List.replicate a u ++ (List.replicate b v ++ List.replicate c z)))
    (hlen2 : w.length = 2 * a) (ha : 0 < a) (hb : 0 < b) :
    npMedian w = (u + v) / 2 := by
  unfold npMedian
  rw [if_neg (by omega)]
  show ((npSorted w).getD (w.length / 2 - 1) 0 + (npSorted w).getD (w.length / 2) 0) / 2
      = (u + v) / 2
  have hhalf : w.length / 2 = a := by omega
  rw [npSorted_three_replicate huv hvz hperm, hhalf,
    List.getD_append _ _ _ _ (by rw [List.length_replicate]; omega),
    getD_replicate, if_pos (by omega),
    List.getD_append_right _ _ _ _ (by rw [List.length_replicate]),
    List.length_replicate, Nat.sub_self,
    List.getD_append _ _ _ _ (by rw [List.length_replicate]; exact hb),
    getD_replicate, if_pos hb]

theorem const_window_med {m : ℚ} {w : List ℚ} (hlen : w.length = 81)
    (hv : ∀ v ∈ w, v = m) : npMedian w = m := by
  have hw : w = List.replicate 81 m := List.eq_replicate_iff.mpr ⟨hlen, hv⟩
  have hperm : w.Perm (List.replicate 81 m ++ List.replicate 0 m) := by
    rw [hw]; simp
  exact npMedian_two_replicate_left le_rfl hperm (by rw [hlen]) (by rw [hlen]; norm_num)

theorem const_window_mad {m : ℚ} {w : List ℚ} (hlen : w.length = 81)
    (hv : ∀ v ∈ w, v = m) : madOf w = 0 := by
  unfold madOf
  rw [const_window_med hlen hv]
  refine const_window_med (by rw [List.length_map, hlen]) ?_
  intro v hvm
  rcases List.mem_map.mp hvm with ⟨u, hu, rfl⟩
  rw [hv u hu, sub_self, abs_zero]

theorem two_value_window81 {x y : ℚ} (hxy : x < y) {w : List ℚ}
    (hlen : w.length = 81) (hv : ∀ v ∈ w, v = x ∨ v = y) :
    npMedian w = (if 41 ≤ w.count x then x else y) ∧ madOf w = 0 := by
  have hperm := perm_two_replicate hxy.ne hv
  have hab : w.count x + w.count y = 81 := by
    have := two_value_count_lengthG hxy.ne hv
    rw [hlen] at this
    exact this
  have hmed : npMedian w = (if 41 ≤ w.count x then x else y) := by
    by_cases h41 : 41 ≤ w.count x
    · rw [if_pos h41]
      exact npMedian_two_replicate_left hxy.le hperm (by rw [hlen]) (by rw [hlen]; omega)
    · rw [if_neg h41]
      exact npMedian_two_replicate_right hxy.le hperm (by rw [hlen]) (by rw [hlen]; omega)
  refine ⟨hmed, ?_⟩
  unfold madOf
  rw [hmed]
  by_cases h41 : 41 ≤ w.count x
  · rw [if_pos h41]
    have hpm : (w.map (fun v => |v - x|)).Perm
        (List.replicate (w.count x) 0 ++ List.replicate (w.count y) (y - x)) := by
      have h2 := hperm.map (fun v => |v - x|)
      rw [List.map_append, List.map_replicate, List.map_replicate, sub_self, abs_zero,
        abs_of_nonneg (sub_nonneg.mpr hxy.le)] at h2
      exact h2
    exact npMedian_two_replicate_left (by linarith) hpm
      (by rw [List.length_map, hlen]) (by rw [List.length_map, hlen]; omega)
  · rw [if_neg h41]
    have hpm : (w.map (fun v => |v - y|)).Perm
        (List.replicate (w.count y) 0 ++ List.replicate (w.count x) (y - x)) := by
      have h2 := hperm.map (fun v => |v - y|)
      rw [List.map_append, List.map_replicate, List.map_replicate, sub_self, abs_zero,
        show |x - y| = y - x from by
          rw [abs_sub_comm, abs_of_nonneg (sub_nonneg.mpr hxy.le)]] at h2
      exact h2.trans List.perm_append_comm
    exact npMedian_two_replicate_left (by linarith) hpm
      (by rw [List.length_map, hlen]) (by rw [List.length_map, hlen]; omega)

theorem drop_take_map_getD (l : List ℚ) (j n : ℕ) (h : j + n ≤ l.length) :
    (l.drop j).take n = (List.range n).map (fun k => l.getD (j + k) 0) := by
  apply List.ext_getElem
  · rw [List.length_take, List.length_drop, List.length_map, List.length_range]
    omega
  · intro i h1 h2
    have hi : i < n := by
      rw [List.length_take, List.length_drop] at h1
      omega
    have hji : j + i < l.length := by omega
    rw [List.getElem_take, List.getElem_drop, List.getElem_map, List.getElem_range,
      List.getD_eq_getElem l 0 hji]

theorem count_map_eq_countP (f : ℕ → ℚ) (v : ℚ) : ∀ l : List ℕ,
    (l.map f).count v = l.countP (fun a => decide (f a = v)) := by
  intro l
  induction l with
  | nil => simp
  | cons a t ih =>
    rw [List.map_cons, List.count_cons, List.countP_cons, ih]
    by_cases h : f a = v
    · rw [if_pos (by simp [h]), if_pos (by simp [h])]
    · rw [if_neg (by simp [h]), if_neg (by simp [h])]

theorem countP_range_lt (m : ℕ) : ∀ n : ℕ,
    (List.range n).countP (fun k => decide (k < m)) = min m n := by
  intro n
  induction n with
  | zero => simp
  | succ n ih =>
    rw [List.range_succ, List.countP_append, ih, List.countP_cons, List.countP_nil]
    simp only [decide_eq_true_eq]
    split_ifs <;> omega

theorem count_flatten_q (v : ℚ) : ∀ L : List (List ℚ),
    L.flatten.count v = (L.map (fun w => w.count v)).sum := by
  intro L
  induction L with
  | nil => simp
  | cons w t ih =>
    rw [List.flatten_cons, List.count_append, ih, List.map_cons, List.sum_cons]

theorem sum_le_length_of_le_one : ∀ l : List ℕ, (∀ x ∈ l, x ≤ 1) → l.sum ≤ l.length := by
  intro l
  induction l with
  | nil => intro _; simp
  | cons a t ih =>
    intro h
    rw [List.sum_cons, List.length_cons]
    have h1 := h a (by simp)
    have h2 := ih (fun x hx => h x (by simp [hx]))
    omega

theorem stepTrace_length : stepTrace.length = 400 := by
  rw [stepTrace, List.length_append, List.length_append, List.length_replicate,
    List.length_replicate, List.length_cons, List.length_replicate]

theorem stepTrace_mem {x : ℚ} (hx : x ∈ stepTrace) : x = 0 ∨ x = 1000 ∨ x = 2000 := by
  unfold stepTrace at hx
  rcases List.mem_append.mp hx with h | h
  · exact Or.inl (List.eq_of_mem_replicate h)
  · rcases List.mem_append.mp h with h | h
    · exact Or.inr (Or.inl (List.eq_of_mem_replicate h))
    · rcases List.mem_cons.mp h with h | h
      · exact Or.inr (Or.inr h)
      · exact Or.inr (Or.inl (List.eq_of_mem_replicate h))

theorem stepTrace_count2000 : stepTrace.count 2000 = 1 := by
  norm_num [stepTrace, List.count_append, List.count_cons, List.count_replicate]

theorem stepTrace_getD (k : ℕ) :
    stepTrace.getD k 0 =
      if k < 200 then 0 else if k = 300 then 2000 else if k < 400 then 1000 else 0 := by
  unfold stepTrace
  by_cases h1 : k < 200
  · rw [List.getD_append _ _ _ _ (by simp; omega), getD_replicate, if_pos h1, if_pos h1]
  · push_neg at h1
    rw [List.getD_append_right _ _ _ _ (by simp; omega)]
    simp only [List.length_replicate]
    by_cases h2 : k < 300
    · rw [List.getD_append _ _ _ _ (by simp; omega), getD_replicate, if_pos (by omega),
        if_neg (by omega), if_neg (by omega), if_pos (by omega)]
    · push_neg at h2
      rw [List.getD_append_right _ _ _ _ (by simp; omega)]
      simp only [List.length_replicate]
      by_cases h3 : k = 300
      · subst h3
        norm_num [List.getD]
      · have hk : k - 200 - 100 = (k - 301) + 1 := by omega
        rw [hk, if_neg (by omega), if_neg h3]
        show (List.replicate 99 (1000 : ℚ)).getD (k - 301) 0 = _
        rw [getD_replicate]
        by_cases h4 : k < 400
        · rw [if_pos (by omega), if_pos h4]
        · rw [if_neg (by omega), if_neg h4]

theorem stepTrace_getElemD (k : ℕ) :
    (stepTrace[k]?).getD 0 =
      if k < 200 then 0 else if k = 300 then 2000 else if k < 400 then 1000 else 0 := by
  rw [← List.getD_eq_getElem?_getD]
  exact stepTrace_getD k

theorem stepTrace_window_length {n j : ℕ} (hn : n = 81) (hj : j < 320) :
    ((stepTrace.drop j).take n).length = 81 := by
  subst hn
  rw [List.length_take, List.length_drop, stepTrace_length]
  omega

theorem stepTrace_window_const0 {n j : ℕ} (hn : n = 81) (hj : j < 120) :
    ∀ v ∈ (stepTrace.drop j).take n, v = (0 : ℚ) := by
  subst hn
  intro v hv
  rw [drop_take_map_getD stepTrace j 81 (by rw [stepTrace_length]; omega)] at hv
  rcases List.mem_map.mp hv with ⟨k, hk, rfl⟩
  have hk81 : k < 81 := List.mem_range.mp hk
  rw [stepTrace_getD, if_pos (by omega)]

theorem stepTrace_window_const1000 {n j : ℕ} (hn : n = 81) (hj1 : 200 ≤ j) (hj2 : j < 320)
    (hj3 : j + 80 < 300 ∨ 300 < j) :
    ∀ v ∈ (stepTrace.drop j).take n, v = (1000 : ℚ) := by
  subst hn
  intro v hv
  rw [drop_take_map_getD stepTrace j 81 (by rw [stepTrace_length]; omega)] at hv
  rcases List.mem_map.mp hv with ⟨k, hk, rfl⟩
  have hk81 : k < 81 := List.mem_range.mp hk
  rw [stepTrace_getD, if_neg (by omega), if_neg (by omega), if_pos (by omega)]

theorem stepTrace_window_lo {n j : ℕ} (hn : n = 81) (hj : j < 200) :
    ∀ v ∈ (stepTrace.drop j).take n, v = 0 ∨ v = 1000 := by
  subst hn
  intro v hv
  rw [drop_take_map_getD stepTrace j 81 (by rw [stepTrace_length]; omega)] at hv
  rcases List.mem_map.mp hv with ⟨k, hk, rfl⟩
  have hk81 : k < 81 := List.mem_range.mp hk
  rw [stepTrace_getD]
  by_cases h1 : j + k < 200
  · rw [if_pos h1]
    left
    rfl
  · rw [if_neg h1, if_neg (by omega), if_pos (by omega)]
    right
    rfl

theorem stepTrace_window_hi {n j : ℕ} (hn : n = 81) (hj1 : 200 ≤ j) (hj2 : j < 320) :
    ∀ v ∈ (stepTrace.drop j).take n, v = 1000 ∨ v = 2000 := by
  subst hn
  intro v hv
  rw [drop_take_map_getD stepTrace j 81 (by rw [stepTrace_length]; omega)] at hv
  rcases List.mem_map.mp hv with ⟨k, hk, rfl⟩
  have hk81 : k < 81 := List.mem_range.mp hk
  rw [stepTrace_getD, if_neg (by omega)]
  by_cases h2 : j + k = 300
  · rw [if_pos h2]
    right
    rfl
  · rw [if_neg h2, if_pos (by omega)]
    left
    rfl

theorem stepTrace_window_count0 {n j : ℕ} (hn : n = 81) (hj : j < 320) :
    ((stepTrace.drop j).take n).count 0 = min (200 - j) 81 := by
  subst hn
  rw [drop_take_map_getD stepTrace j 81 (by rw [stepTrace_length]; omega),
    count_map_eq_countP]
  have hc : (List.range 81).countP (fun k => decide (stepTrace.getD (j + k) 0 = 0))
      = (List.range 81).countP (fun k => decide (k < 200 - j)) := by
    refine List.countP_congr ?_
    intro k hk
    have hk81 : k < 81 := List.mem_range.mp hk
    simp only [decide_eq_true_eq]
    rw [stepTrace_getD]
    constructor
    · intro h
      by_cases h1 : j + k < 200
      · omega
      · exfalso
        rw [if_neg h1] at h
        by_cases h2 : j + k = 300
        · rw [if_pos h2] at h
          norm_num at h
        · rw [if_neg h2, if_pos (by omega)] at h
          norm_num at h
    · intro h
      rw [if_pos (by omega)]
  rw [hc, countP_range_lt]

theorem stepTrace_window_count2000 (n j : ℕ) :
    ((stepTrace.drop j).take n).count 2000 ≤ 1 := by
  have hsub : List.Sublist ((stepTrace.drop j).take n) stepTrace :=
    (List.take_sublist _ _).trans (List.drop_sublist _ _)
  have h1 := hsub.count_le 2000
  rw [stepTrace_count2000] at h1
  exact h1

theorem stackedGlobalMedian_unit {tr : List ℚ} (hlen : tr.length = 1000)
    (hv : ∀ x ∈ tr, x = 0 ∨ x = 100) (hc : tr.count 100 ≤ 1) :
    stackedGlobalMedian tr 80 = 0 := by
  unfold stackedGlobalMedian
  rw [hlen]
  have h920 : (1000 : ℕ) - 80 = 920 := by norm_num
  rw [h920]
  set F : List ℚ := ((List.range 920).map (fun j => (tr.drop j).take (80 + 1))).flatten with hF
  have hvF : ∀ v ∈ F, v = 0 ∨ v = 100 := by
    intro v hvm
    rw [hF] at hvm
    rcases List.mem_flatten.mp hvm with ⟨w, hwmem, hvw⟩
    rcases List.mem_map.mp hwmem with ⟨j, hjmem, rfl⟩
    exact hv v (((List.take_sublist _ _).trans (List.drop_sublist _ _)).subset hvw)
  have hlenF : F.length = 74520 := by
    rw [hF, List.length_flatten, List.map_map]
    have hm : (List.range 920).map (List.length ∘ fun j => (tr.drop j).take (80 + 1))
        = List.replicate 920 81 := by
      refine List.eq_replicate_iff.mpr ⟨by rw [List.length_map, List.length_range], ?_⟩
      intro b hb
      rcases List.mem_map.mp hb with ⟨j, hj, rfl⟩
      have hj920 : j < 920 := List.mem_range.mp hj
      show ((tr.drop j).take (80 + 1)).length = 81
      rw [List.length_take, List.length_drop, hlen]
      omega
    rw [hm, List.sum_replicate, smul_eq_mul]
  have hcF : F.count 100 ≤ 920 := by
    rw [hF, count_flatten_q, List.map_map]
    have h1 : ∀ x ∈ (List.range 920).map
        ((fun w => w.count 100) ∘ fun j => (tr.drop j).take (80 + 1)), x ≤ 1 := by
      intro x hx
      rcases List.mem_map.mp hx with ⟨j, hj, rfl⟩
      show ((tr.drop j).take (80 + 1)).count 100 ≤ 1
      exact le_trans (((List.take_sublist _ _).trans (List.drop_sublist _ _)).count_le 100) hc
    have h2 := sum_le_length_of_le_one _ h1
    rw [List.length_map, List.length_range] at h2
    exact h2
  have hsum : F.count 0 + F.count 100 = 74520 := by
    have := two_value_count_lengthG (by norm_num : (0 : ℚ) ≠ 100) hvF
    rw [hlenF] at this
    exact this
  have hperm := perm_two_replicate (by norm_num : (0 : ℚ) ≠ 100) hvF
  have heven : F.length % 2 = 0 := by rw [hlenF]
  have hmaj : F.length / 2 < F.count 0 := by
    rw [hlenF]
    omega
  exact npMedian_two_replicate_even_low (by norm_num) hperm heven hmaj

theorem stackedGlobalMedian_step : stackedGlobalMedian stepTrace 80 = 500 := by
  unfold stackedGlobalMedian
  rw [stepTrace_length]
  have h320 : (400 : ℕ) - 80 = 320 := by norm_num
  rw [h320]
  set F : List ℚ := ((List.range 320).map (fun j => (stepTrace.drop j).take (80 + 1))).flatten
    with hF
  have hvF : ∀ v ∈ F, v = 0 ∨ v = 1000 ∨ v = 2000 := by
    intro v hvm
    rw [hF] at hvm
    rcases List.mem_flatten.mp hvm with ⟨w, hwmem, hvw⟩
    rcases List.mem_map.mp hwmem with ⟨j, hjmem, rfl⟩
    exact stepTrace_mem (((List.take_sublist _ _).trans (List.drop_sublist _ _)).subset hvw)
  have hlenF : F.length = 25920 := by
    rw [hF, List.length_flatten, List.map_map]
    have hm : (List.range 320).map (List.length ∘ fun j => (stepTrace.drop j).take (80 + 1))
        = List.replicate 320 81 := by
      refine List.eq_replicate_iff.mpr ⟨by rw [List.length_map, List.length_range], ?_⟩
      intro b hb
      rcases List.mem_map.mp hb with ⟨j, hj, rfl⟩
      have hj320 : j < 320 := List.mem_range.mp hj
      exact stepTrace_window_length rfl hj320
    rw [hm, List.sum_replicate, smul_eq_mul]
  have hc0 : F.count 0 = 12960 := by
    rw [hF, count_flatten_q, List.map_map]
    have hm : (List.range 320).map ((fun w => w.count 0) ∘ fun j => (stepTrace.drop j).take (80 + 1))
        = (List.range 320).map (fun j => (List.range 81).countP (fun k => decide (j + k < 200))) := by
      refine List.map_congr_left ?_
      intro j hj
      have hj320 : j < 320 := List.mem_range.mp hj
      show ((stepTrace.drop j).take (80 + 1)).count 0 = _
      rw [drop_take_map_getD stepTrace j (80 + 1) (by rw [stepTrace_length]; omega),
        count_map_eq_countP]
      refine List.countP_congr ?_
      intro k hk
      have hk81 : k < 80 + 1 := List.mem_range.mp hk
      simp only [decide_eq_true_eq]
      rw [stepTrace_getD]
      constructor
      · intro h
        by_cases h1 : j + k < 200
        · exact h1
        · exfalso
          rw [if_neg h1] at h
          by_cases h2 : j + k = 300
          · rw [if_pos h2] at h
            norm_num at h
          · rw [if_neg h2, if_pos (by omega)] at h
            norm_num at h
      · intro h
        rw [if_pos h]
    rw [hm]
    decide
  have hc2000 : F.count 2000 = 81 := by
    rw [hF, count_flatten_q, List.map_map]
    have hm : (List.range 320).map
        ((fun w => w.count 2000) ∘ fun j => (stepTrace.drop j).take (80 + 1))
        = (List.range 320).map (fun j => (List.range 81).countP (fun k => decide (j + k = 300))) := by
      refine List.map_congr_left ?_
      intro j hj
      have hj320 : j < 320 := List.mem_range.mp hj
      show ((stepTrace.drop j).take (80 + 1)).count 2000 = _
      rw [drop_take_map_getD stepTrace j (80 + 1) (by rw [stepTrace_length]; omega),
        count_map_eq_countP]
      refine List.countP_congr ?_
      intro k hk
      have hk81 : k < 80 + 1 := List.mem_range.mp hk
      simp only [decide_eq_true_eq]
      rw [stepTrace_getD]
      constructor
      · intro h
        by_cases h1 : j + k < 200
        · rw [if_pos h1] at h
          norm_num at h
        · rw [if_neg h1] at h
          by_cases h2 : j + k = 300
          · exact h2
          · exfalso
            rw [if_neg h2, if_pos (by omega)] at h
            norm_num at h
      · intro h
        rw [if_neg (by omega), if_pos h]
    rw [hm]
    decide
  have hperm := perm_three_replicate (by norm_num : (0 : ℚ) ≠ 1000)
    (by norm_num : (0 : ℚ) ≠ 2000) (by norm_num : (1000 : ℚ) ≠ 2000) hvF
  have hc1000 : F.count 1000 = 12879 := by
    have hle := hperm.length_eq
    rw [hlenF, List.length_append, List.length_append, List.length_replicate,
      List.length_replicate, List.length_replicate, hc0, hc2000] at hle
    omega
  rw [hc0, hc1000, hc2000] at hperm
  have hres := npMedian_three_replicate_boundary (by norm_num : (0 : ℚ) ≤ 1000)
    (by norm_num : (1000 : ℚ) ≤ 2000) hperm (by rw [hlenF]) (by norm_num) (by norm_num)
  rw [hres]
  norm_num

theorem fast_spikes_at500 : fast_trace_spikes spikeTrace500 80 10 = 1 := by
  have hlen : spikeTrace500.length = 1000 := by
    rw [spikeTrace500, List.length_append, List.length_replicate, List.length_cons,
      List.length_replicate]
  have hg : stackedGlobalMedian spikeTrace500 80 = 0 :=
    stackedGlobalMedian_unit hlen (fun x hx => spikeTrace500_mem hx)
      (le_of_eq spikeTrace500_count)
  unfold fast_trace_spikes
  rw [hlen]
  have h920 : (1000 : ℕ) - 80 = 920 := by norm_num
  rw [h920]
  refine Eq.trans (List.countP_congr (q := fun j => decide (j = 460)) ?_) (by decide)
  intro j hj
  have hj920 : j < 920 := List.mem_range.mp hj
  have hsub : List.Sublist ((spikeTrace500.drop j).take (80 + 1)) spikeTrace500 :=
    (List.take_sublist _ _).trans (List.drop_sublist _ _)
  have hWlen : ((spikeTrace500.drop j).take (80 + 1)).length = 81 := by
    rw [List.length_take, List.length_drop, hlen]
    omega
  have hWv : ∀ x ∈ (spikeTrace500.drop j).take (80 + 1), x = 0 ∨ x = 100 :=
    fun x hx => spikeTrace500_mem (hsub.subset hx)
  have hWc : ((spikeTrace500.drop j).take (80 + 1)).count 100 ≤ 1 := by
    have := hsub.count_le 100
    rw [spikeTrace500_count] at this
    exact this
  obtain ⟨hmed, -⟩ := window_med_mad hWlen hWv hWc
  have hmap : ((spikeTrace500.drop j).take (80 + 1)).map (fun x => |x - (0 : ℚ)|)
      = (spikeTrace500.drop j).take (80 + 1) := by
    have hid : ∀ x ∈ (spikeTrace500.drop j).take (80 + 1), |x - (0 : ℚ)| = x := by
      intro x hx
      rcases hWv x hx with h | h <;> rw [h] <;> norm_num
    calc ((spikeTrace500.drop j).take (80 + 1)).map (fun x => |x - (0 : ℚ)|)
        = ((spikeTrace500.drop j).take (80 + 1)).map (fun x => x) := List.map_congr_left hid
      _ = _ := by simp
  dsimp only
  rw [hg, hmap, hmed]
  simp only [decide_eq_true_eq]
  rw [show (80 + 1) / 2 + j = 40 + j from by norm_num, spikeTrace500_getD]
  by_cases h460 : j = 460
  · subst h460
    norm_num
  · rw [if_neg (by omega)]
    constructor
    · intro hcon
      exfalso
      rcases hcon with ⟨_, hlt⟩
      norm_num at hlt
    · intro hcon
      exact absurd hcon h460

theorem fast_spikes_at10 : fast_trace_spikes spikeTrace10 80 10 = 0 := by
  have hlen : spikeTrace10.length = 1000 := by
    rw [spikeTrace10, List.length_append, List.length_replicate, List.length_cons,
      List.length_replicate]
  have hg : stackedGlobalMedian spikeTrace10 80 = 0 :=
    stackedGlobalMedian_unit hlen (fun x hx => spikeTrace10_mem hx)
      (le_of_eq spikeTrace10_count)
  unfold fast_trace_spikes
  rw [hlen]
  have h920 : (1000 : ℕ) - 80 = 920 := by norm_num
  rw [h920]
  rw [List.countP_eq_zero]
  intro j hj
  have hj920 : j < 920 := List.mem_range.mp hj
  have hsub : List.Sublist ((spikeTrace10.drop j).take (80 + 1)) spikeTrace10 :=
    (List.take_sublist _ _).trans (List.drop_sublist _ _)
  have hWlen : ((spikeTrace10.drop j).take (80 + 1)).length = 81 := by
    rw [List.length_take, List.length_drop, hlen]
    omega
  have hWv : ∀ x ∈ (spikeTrace10.drop j).take (80 + 1), x = 0 ∨ x = 100 :=
    fun x hx => spikeTrace10_mem (hsub.subset hx)
  have hWc : ((spikeTrace10.drop j).take (80 + 1)).count 100 ≤ 1 := by
    have := hsub.count_le 100
    rw [spikeTrace10_count] at this
    exact this
  obtain ⟨hmed, -⟩ := window_med_mad hWlen hWv hWc
  have hmap : ((spikeTrace10.drop j).take (80 + 1)).map (fun x => |x - (0 : ℚ)|)
      = (spikeTrace10.drop j).take (80 + 1) := by
    have hid : ∀ x ∈ (spikeTrace10.drop j).take (80 + 1), |x - (0 : ℚ)| = x := by
      intro x hx
      rcases hWv x hx with h | h <;> rw [h] <;> norm_num
    calc ((spikeTrace10.drop j).take (80 + 1)).map (fun x => |x - (0 : ℚ)|)
        = ((spikeTrace10.drop j).take (80 + 1)).map (fun x => x) := List.map_congr_left hid
      _ = _ := by simp
  dsimp only
  rw [hg, hmap, hmed]
  simp only [decide_eq_true_eq]
  rw [show (80 + 1) / 2 + j = 40 + j from by norm_num, spikeTrace10_getD]
  rw [if_neg (by omega)]
  intro hcon
  rcases hcon with ⟨_, hlt⟩
  norm_num at hlt

theorem efficient_spikes_at500 : efficient_trace_spikes spikeTrace500 80 10 = 1 := by
  have hlen : spikeTrace500.length = 1000 := by
    rw [spikeTrace500, List.length_append, List.length_replicate, List.length_cons,
      List.length_replicate]
  unfold efficient_trace_spikes
  rw [hlen]
  norm_num
  rw [List.range'_eq_map_range, List.countP_map]
  refine Eq.trans (List.countP_congr (q := fun j => decide (j = 460)) ?_) (by decide)
  intro j hj
  have hj920 : j < 920 := List.mem_range.mp hj
  dsimp only [Function.comp]
  rw [Nat.add_comm 40 j, Nat.add_sub_cancel]
  have hsub : List.Sublist ((spikeTrace500.drop j).take 81) spikeTrace500 :=
    (List.take_sublist _ _).trans (List.drop_sublist _ _)
  have hWlen : ((spikeTrace500.drop j).take 81).length = 81 := by
    rw [List.length_take, List.length_drop, hlen]
    omega
  have hWv : ∀ x ∈ (spikeTrace500.drop j).take 81, x = 0 ∨ x = 100 :=
    fun x hx => spikeTrace500_mem (hsub.subset hx)
  have hWc : ((spikeTrace500.drop j).take 81).count 100 ≤ 1 := by
    have := hsub.count_le 100
    rw [spikeTrace500_count] at this
    exact this
  obtain ⟨hmed, hmad⟩ := window_med_mad hWlen hWv hWc
  rw [hmed, hmad, spikeTrace500_getElemD]
  simp only [decide_eq_true_eq]
  by_cases h460 : j = 460
  · subst h460
    rw [if_pos (by norm_num : (460 : ℕ) + 40 = 500)]
    constructor
    · intro _
      rfl
    · intro _
      norm_num
  · rw [if_neg (by omega)]
    constructor
    · intro hcon
      exfalso
      norm_num at hcon
    · intro hcon
      exact absurd hcon h460

theorem efficient_spikes_at10 : efficient_trace_spikes spikeTrace10 80 10 = 0 := by
  have hlen : spikeTrace10.length = 1000 := by
    rw [spikeTrace10, List.length_append, List.length_replicate, List.length_cons,
      List.length_replicate]
  unfold efficient_trace_spikes
  rw [hlen]
  norm_num
  intro i h40 h960
  have hsub : List.Sublist ((spikeTrace10.drop (i - 40)).take 81) spikeTrace10 :=
    (List.take_sublist _ _).trans (List.drop_sublist _ _)
  have hWlen : ((spikeTrace10.drop (i - 40)).take 81).length = 81 := by
    rw [List.length_take, List.length_drop, hlen]
    omega
  have hWv : ∀ x ∈ (spikeTrace10.drop (i - 40)).take 81, x = 0 ∨ x = 100 :=
    fun x hx => spikeTrace10_mem (hsub.subset hx)
  have hWc : ((spikeTrace10.drop (i - 40)).take 81).count 100 ≤ 1 := by
    have := hsub.count_le 100
    rw [spikeTrace10_count] at this
    exact this
  obtain ⟨hmed, hmad⟩ := window_med_mad hWlen hWv hWc
  rw [hmed, hmad, spikeTrace10_getElemD, if_neg (by omega : ¬ i = 10)]
  norm_num

theorem fast_spikes_step : fast_trace_spikes stepTrace 80 10 = 0 := by
  unfold fast_trace_spikes
  rw [stepTrace_length]
  have h320 : (400 : ℕ) - 80 = 320 := by norm_num
  rw [h320]
  rw [List.countP_eq_zero]
  intro j hj
  have hj320 : j < 320 := List.mem_range.mp hj
  have hWlen : ((stepTrace.drop j).take (80 + 1)).length = 81 :=
    stepTrace_window_length (by norm_num) hj320
  have hmad : npMedian (((stepTrace.drop j).take (80 + 1)).map (fun x => |x - (500 : ℚ)|))
      = 500 := by
    rcases Nat.lt_or_ge j 200 with hlo | hhi
    · refine const_window_med (by rw [List.length_map]; exact hWlen) ?_
      intro u hu
      rcases List.mem_map.mp hu with ⟨v, hv, rfl⟩
      rcases stepTrace_window_lo (by norm_num) hlo v hv with h | h <;> rw [h] <;> norm_num
    · have hv := stepTrace_window_hi (n := 80 + 1) (by norm_num) hhi hj320
      have hperm := perm_two_replicate (by norm_num : (1000 : ℚ) ≠ 2000) hv
      have hcl : ((stepTrace.drop j).take (80 + 1)).count 1000
          + ((stepTrace.drop j).take (80 + 1)).count 2000 = 81 := by
        have := two_value_count_lengthG (by norm_num : (1000 : ℚ) ≠ 2000) hv
        rw [hWlen] at this
        exact this
      have hc2 := stepTrace_window_count2000 (80 + 1) j
      have hpm : (((stepTrace.drop j).take (80 + 1)).map (fun x => |x - (500 : ℚ)|)).Perm
          (List.replicate (((stepTrace.drop j).take (80 + 1)).count 1000) 500 ++
           List.replicate (((stepTrace.drop j).take (80 + 1)).count 2000) 1500) := by
        have h2 := hperm.map (fun x => |x - (500 : ℚ)|)
        rw [List.map_append, List.map_replicate, List.map_replicate,
          show |(1000 : ℚ) - 500| = 500 from by
            rw [show (1000 : ℚ) - 500 = 500 from by norm_num]
            exact abs_of_nonneg (by norm_num),
          show |(2000 : ℚ) - 500| = 1500 from by
            rw [show (2000 : ℚ) - 500 = 1500 from by norm_num]
            exact abs_of_nonneg (by norm_num)] at h2
        exact h2
      exact npMedian_two_replicate_left (by norm_num : (500 : ℚ) ≤ 1500) hpm
        (by rw [List.length_map, hWlen]) (by rw [List.length_map, hWlen]; omega)
  have hsub : List.Sublist ((stepTrace.drop j).take (80 + 1)) stepTrace :=
    (List.take_sublist _ _).trans (List.drop_sublist _ _)
  have hmem : ∀ v ∈ (stepTrace.drop j).take (80 + 1), (0 : ℚ) ≤ v ∧ v ≤ 2000 := by
    intro v hv
    rcases stepTrace_mem (hsub.subset hv) with h | h | h <;> rw [h] <;> norm_num
  have hmed0 : 0 ≤ npMedian ((stepTrace.drop j).take (80 + 1)) :=
    npMedian_nonneg (fun v hv => (hmem v hv).1)
  have hmed2 : npMedian ((stepTrace.drop j).take (80 + 1)) ≤ 2000 :=
    npMedian_le (by norm_num) (fun v hv => (hmem v hv).2)
  have hg0 : 0 ≤ stepTrace.getD ((80 + 1) / 2 + j) 0 := by
    rw [stepTrace_getD]
    split_ifs <;> norm_num
  have hg2 : stepTrace.getD ((80 + 1) / 2 + j) 0 ≤ 2000 := by
    rw [stepTrace_getD]
    split_ifs <;> norm_num
  dsimp only
  rw [stackedGlobalMedian_step, hmad]
  simp only [decide_eq_true_eq]
  intro hcon
  rcases hcon with ⟨-, hlt⟩
  have habs : |stepTrace.getD ((80 + 1) / 2 + j) 0
      - npMedian ((stepTrace.drop j).take (80 + 1))| ≤ 2000 := by
    rw [abs_sub_le_iff]
    constructor <;> linarith
  linarith

theorem efficient_spikes_step : efficient_trace_spikes stepTrace 80 10 = 1 := by
  unfold efficient_trace_spikes
  rw [stepTrace_length]
  norm_num
  rw [List.range'_eq_map_range, List.countP_map]
  refine Eq.trans (List.countP_congr (q := fun j => decide (j = 260)) ?_) (by decide)
  intro j hj
  have hj320 : j < 320 := List.mem_range.mp hj
  dsimp only [Function.comp]
  rw [Nat.add_comm 40 j, Nat.add_sub_cancel]
  have hWlen : ((stepTrace.drop j).take 81).length = 81 :=
    stepTrace_window_length rfl hj320
  simp only [decide_eq_true_eq]
  rcases Nat.lt_or_ge j 120 with hA | h120
  · have hv := stepTrace_window_const0 rfl hA
    rw [const_window_med hWlen hv, const_window_mad hWlen hv, stepTrace_getElemD,
      if_pos (by omega : j + 40 < 200)]
    constructor
    · intro hcon
      exfalso
      norm_num at hcon
    · intro hcon
      exfalso
      omega
  · rcases Nat.lt_or_ge j 200 with hB | h200
    · have hv := stepTrace_window_lo rfl hB
      have hc0 : ((stepTrace.drop j).take 81).count 0 = 200 - j := by
        rw [stepTrace_window_count0 rfl hj320]
        omega
      obtain ⟨hmed, hmad⟩ := two_value_window81 (by norm_num : (0 : ℚ) < 1000) hWlen hv
      rw [hc0] at hmed
      rw [hmed, hmad, stepTrace_getElemD]
      rcases Nat.lt_or_ge j 160 with h160 | h160
      · rw [if_pos (by omega : 41 ≤ 200 - j), if_pos (by omega : j + 40 < 200)]
        constructor
        · intro hcon
          exfalso
          norm_num at hcon
        · intro hcon
          exfalso
          omega
      · rw [if_neg (by omega : ¬ 41 ≤ 200 - j), if_neg (by omega : ¬ j + 40 < 200),
          if_neg (by omega : ¬ j + 40 = 300), if_pos (by omega : j + 40 < 400)]
        constructor
        · intro hcon
          exfalso
          norm_num at hcon
        · intro hcon
          exfalso
          omega
    · rcases Nat.lt_or_ge j 220 with hC | h220
      · have hv := stepTrace_window_const1000 rfl h200 hj320 (Or.inl (by omega))
        rw [const_window_med hWlen hv, const_window_mad hWlen hv, stepTrace_getElemD,
          if_neg (by omega : ¬ j + 40 < 200), if_neg (by omega : ¬ j + 40 = 300),
          if_pos (by omega : j + 40 < 400)]
        constructor
        · intro hcon
          exfalso
          norm_num at hcon
        · intro hcon
          exfalso
          omega
      · rcases Nat.lt_or_ge j 301 with hD | h301
        · have hv := stepTrace_window_hi rfl h200 hj320
          obtain ⟨hmed, hmad⟩ := two_value_window81 (by norm_num : (1000 : ℚ) < 2000) hWlen hv
          have h1000 : 41 ≤ ((stepTrace.drop j).take 81).count 1000 := by
            have hcl := two_value_count_lengthG (by norm_num : (1000 : ℚ) ≠ 2000) hv
            rw [hWlen] at hcl
            have hc2 := stepTrace_window_count2000 81 j
            omega
          rw [if_pos h1000] at hmed
          rw [hmed, hmad, stepTrace_getElemD, if_neg (by omega : ¬ j + 40 < 200)]
          by_cases h260 : j = 260
          · subst h260
            rw [if_pos (by norm_num : (260 : ℕ) + 40 = 300)]
            constructor
            · intro _
              rfl
            · intro _
              norm_num
          · rw [if_neg (by omega : ¬ j + 40 = 300), if_pos (by omega : j + 40 < 400)]
            constructor
            · intro hcon
              exfalso
              norm_num at hcon
            · intro hcon
              exact absurd hcon h260
        · have hv := stepTrace_window_const1000 rfl (by omega) hj320 (Or.inr (by omega))
          rw [const_window_med hWlen hv, const_window_mad hWlen hv, stepTrace_getElemD,
            if_neg (by omega : ¬ j + 40 < 200), if_neg (by omega : ¬ j + 40 = 300),
            if_pos (by omega : j + 40 < 400)]
          constructor
          · intro hcon
            exfalso
            norm_num at hcon
          · intro hcon
            exfalso
            omega

/-- C8: the `'fast'` and `'efficient'` spike engines agree on the two
concrete 1000-sample scenarios (both count 1 for the spike at index 500
and 0 for the spike at index 10), but they are **not** equivalent on
every NaN-free trace of length at least `2w` (`w = 80`): on the
400-sample step trace (200 zeros, then 1000s with a single 2000 at
index 300) the efficient engine counts the spike while the fast engine
counts nothing, because the fast engine's `mad_array` measures each
window's deviations from the scalar median of the whole stacked window
matrix (500 here), inflating every threshold to `1.4826·10·500 + 1e-9`. -/
theorem C8_spike_engines_diverge :
    (fast_trace_spikes spikeTrace500 80 10 = 1 ∧
      efficient_trace_spikes spikeTrace500 80 10 = 1 ∧
      fast_trace_spikes spikeTrace10 80 10 = 0 ∧
      efficient_trace_spikes spikeTrace10 80 10 = 0) ∧
    2 * 80 ≤ stepTrace.length ∧
    fast_trace_spikes stepTrace 80 10 = 0 ∧
    efficient_trace_spikes stepTrace 80 10 = 1 :=
  ⟨⟨fast_spikes_at500, efficient_spikes_at500, fast_spikes_at10, efficient_spikes_at10⟩,
    by rw [stepTrace_length]; norm_num, fast_spikes_step, efficient_spikes_step⟩

theorem lastIndexGTAux_spec (p : ℚ) : ∀ (tbl : List ℚ) (i : ℕ),
    (lastIndexGTAux p tbl i = none → ∀ j, j < tbl.length → ¬ tbl.getD j 0 < p) ∧
    (∀ k, lastIndexGTAux p tbl i = some k →
      ∃ j, j < tbl.length ∧ k = i + j ∧ tbl.getD j 0 < p ∧
        (∀ j2, j2 < tbl.length → tbl.getD j2 0 < p → j2 ≤ j)) := by
  intro tbl
  induction tbl with
  | nil =>
    intro i
    constructor
    · intro _ j hj
      simp at hj
    · intro k hk
      simp [lastIndexGTAux] at hk
  | cons t rest ih =>
    intro i
    obtain ⟨ihn, ihs⟩ := ih (i + 1)
    constructor
    · intro hnone j hj
      unfold lastIndexGTAux at hnone
      cases haux : lastIndexGTAux p rest (i + 1) with
      | some k2 =>
        rw [haux] at hnone
        exact absurd hnone (by simp)
      | none =>
        rw [haux] at hnone
        by_cases hp : p > t
        · rw [if_pos hp] at hnone
          exact absurd hnone (by simp)
        · cases j with
          | zero => simpa using hp
          | succ j2 =>
            show ¬ rest.getD j2 0 < p
            exact ihn haux j2 (by simpa using hj)
    · intro k hk
      unfold lastIndexGTAux at hk
      cases haux : lastIndexGTAux p rest (i + 1) with
      | some k2 =>
        rw [haux] at hk
        have hk2 : k2 = k := by injection hk
        subst hk2
        obtain ⟨j, hj, hkij, hlt, hmax⟩ := ihs k2 haux
        refine ⟨j + 1, by simpa using Nat.succ_lt_succ hj, by omega, by simpa using hlt, ?_⟩
        intro j2 hj2 hj2lt
        cases j2 with
        | zero => omega
        | succ j3 =>
          have : j3 ≤ j := hmax j3 (by simpa using hj2) (by simpa using hj2lt)
          omega
      | none =>
        rw [haux] at hk
        by_cases hp : p > t
        · rw [if_pos hp] at hk
          have hik : i = k := by injection hk
          subst hik
          refine ⟨0, by simp, by omega, by simpa using hp, ?_⟩
          intro j2 hj2 hlt2
          cases j2 with
          | zero => omega
          | succ j3 =>
            exact absurd (by simpa using hlt2) (ihn haux j3 (by simpa using hj2))
        · rw [if_neg hp] at hk
          exact absurd hk (by simp)

theorem Ph_mem_lb : ∀ x ∈ Ph, 1/10 ≤ x := by
  intro x hx
  simp [Ph] at hx
  rcases hx with h|h|h|h|h|h|h|h|h|h|h|h <;> rw [h] <;> norm_num

theorem Pl_mem_lb : ∀ x ∈ Pl, 1/10 ≤ x := by
  intro x hx
  simp [Pl] at hx
  rcases hx with h|h|h|h|h|h|h|h|h|h|h|h|h|h|h|h|h|h|h|h|h|h <;> rw [h] <;> norm_num

theorem lastIndexGT_Ph_none (p : ℚ) : lastIndexGT p Ph = none ↔ p ≤ 1/10 := by
  constructor
  · intro h
    have h0 := (lastIndexGTAux_spec p Ph 0).1 h 0 (by norm_num [Ph])
    have : Ph.getD 0 0 = 1/10 := by norm_num [Ph, List.getD]
    rw [this] at h0
    linarith [not_lt.mp h0]
  · intro hp
    cases haux : lastIndexGT p Ph with
    | none => rfl
    | some k =>
      exfalso
      obtain ⟨j, hj, _, hlt, _⟩ := (lastIndexGTAux_spec p Ph 0).2 k haux
      have hmem : Ph.getD j 0 ∈ Ph := by
        rw [List.getD_eq_getElem Ph 0 hj]
        exact List.getElem_mem hj
      have := Ph_mem_lb _ hmem
      linarith

theorem lastIndexGT_Pl_none (p : ℚ) : lastIndexGT p Pl = none ↔ p ≤ 1/10 := by
  constructor
  · intro h
    have h0 := (lastIndexGTAux_spec p Pl 0).1 h 0 (by norm_num [Pl])
    have : Pl.getD 0 0 = 1/10 := by norm_num [Pl, List.getD]
    rw [this] at h0
    linarith [not_lt.mp h0]
  · intro hp
    cases haux : lastIndexGT p Pl with
    | none => rfl
    | some k =>
      exfalso
      obtain ⟨j, hj, _, hlt, _⟩ := (lastIndexGTAux_spec p Pl 0).2 k haux
      have hmem : Pl.getD j 0 ∈ Pl := by
        rw [List.getD_eq_getElem Pl 0 hj]
        exact List.getElem_mem hj
      have := Pl_mem_lb _ hmem
      linarith

theorem lastIndexGT_Ph_top (p : ℚ) (k : ℕ) (h : lastIndexGT p Ph = some k) :
    11 ≤ k ↔ 100000 < p := by
  obtain ⟨j, hj, hk0, hlt, hmax⟩ := (lastIndexGTAux_spec p Ph 0).2 k h
  have hjk : k = j := by omega
  subst hjk
  have hlen : Ph.length = 12 := rfl
  constructor
  · intro h11
    have hj11 : k = 11 := by omega
    subst hj11
    have : Ph.getD 11 0 = 100000 := by norm_num [Ph, List.getD]
    rw [this] at hlt
    exact hlt
  · intro htop
    have h11 : Ph.getD 11 0 < p := by
      have : Ph.getD 11 0 = 100000 := by norm_num [Ph, List.getD]
      rw [this]
      exact htop
    exact hmax 11 (by omega) h11

theorem lastIndexGT_Pl_top (p : ℚ) (k : ℕ) (h : lastIndexGT p Pl = some k) :
    21 ≤ k ↔ 100000 < p := by
  obtain ⟨j, hj, hk0, hlt, hmax⟩ := (lastIndexGTAux_spec p Pl 0).2 k h
  have hjk : k = j := by omega
  subst hjk
  have hlen : Pl.length = 22 := rfl
  constructor
  · intro h21
    have hj21 : k = 21 := by omega
    subst hj21
    have : Pl.getD 21 0 = 100000 := by norm_num [Pl, List.getD]
    rw [this] at hlt
    exact hlt
  · intro htop
    have h21 : Pl.getD 21 0 < p := by
      have : Pl.getD 21 0 = 100000 := by norm_num [Pl, List.getD]
      rw [this]
      exact htop
    exact hmax 21 (by omega) h21

theorem range_filter_getD_cons (p : ℚ) (rest : List ℚ) (pInd : ℕ) :
    ((List.range (p :: rest).length).filter
        (fun i => modelInRange ((p :: rest).getD i 0))).map (fun i => pInd + i)
      = (if modelInRange p then [pInd] else []) ++
        ((List.range rest.length).filter
          (fun i => modelInRange (rest.getD i 0))).map (fun i => (pInd + 1) + i) := by
  rw [List.length_cons, List.range_succ_eq_map, List.filter_cons]
  have h0 : ((p :: rest).getD 0 0) = p := rfl
  rw [h0]
  have hmapfil : (List.filter (fun i => modelInRange ((p :: rest).getD i 0))
        ((List.range rest.length).map Nat.succ))
      = ((List.range rest.length).filter
          (fun i => modelInRange (rest.getD i 0))).map Nat.succ := by
    rw [List.filter_map]
    congr 1
  have hfun : ∀ i ∈ (List.range rest.length).filter (fun i => modelInRange (rest.getD i 0)),
      ((fun i => pInd + i) ∘ Nat.succ) i = (fun i => (pInd + 1) + i) i := by
    intro i _
    simp only [Function.comp]
    omega
  by_cases hp : modelInRange p
  · rw [if_pos hp, if_pos hp]
    rw [List.map_cons, hmapfil, List.map_map, List.map_congr_left hfun]
    simp only [List.singleton_append]
    congr 1
  · rw [if_neg hp, if_neg hp]
    rw [hmapfil, List.map_map, List.map_congr_left hfun]
    simp only [List.nil_append]

theorem model_step_valid (p : ℚ) (hval : modelInRange p = true) :
    model_step p = some (nhnmVal p, nlnmVal p) := by
  have hrange : 1/10 < p ∧ p ≤ 100000 := by
    simpa [modelInRange] using hval
  have hhi : ∃ k, lastIndexGT p Ph = some k := by
    cases hph : lastIndexGT p Ph with
    | none => exact absurd ((lastIndexGT_Ph_none p).mp hph) (not_le.mpr hrange.1)
    | some k => exact ⟨k, rfl⟩
  have hlo : ∃ k, lastIndexGT p Pl = some k := by
    cases hpl : lastIndexGT p Pl with
    | none => exact absurd ((lastIndexGT_Pl_none p).mp hpl) (not_le.mpr hrange.1)
    | some k => exact ⟨k, rfl⟩
  obtain ⟨hi, hhi⟩ := hhi
  obtain ⟨lo, hlo⟩ := hlo
  have hhi11 : hi < 11 := by
    by_contra hcon
    push_neg at hcon
    exact absurd ((lastIndexGT_Ph_top p hi hhi).mp hcon) (not_lt.mpr hrange.2)
  have hlo21 : lo < 21 := by
    by_contra hcon
    push_neg at hcon
    exact absurd ((lastIndexGT_Pl_top p lo hlo).mp hcon) (not_lt.mpr hrange.2)
  have hAh : Ah.length = 11 := rfl
  have hAl : Al.length = 21 := rfl
  have hnh : nhnmVal p
      = (Ah.getD hi 0 : ℝ) + (Bh.getD hi 0 : ℝ) * Real.logb 10 (p : ℝ) := by
    unfold nhnmVal
    rw [hhi]
  have hnl : nlnmVal p
      = (Al.getD lo 0 : ℝ) + (Bl.getD lo 0 : ℝ) * Real.logb 10 (p : ℝ) := by
    unfold nlnmVal
    rw [hlo]
  unfold model_step
  rw [hhi, hlo]
  dsimp only
  rw [if_neg (by omega), hnh, hnl]

theorem model_step_invalid (p : ℚ) (hval : modelInRange p = false) :
    model_step p = none := by
  have hcases : p ≤ 1/10 ∨ 100000 < p := by
    have hnot : ¬ (1/10 < p ∧ p ≤ 100000) := by
      intro hcon
      have htrue : modelInRange p = true := by
        unfold modelInRange
        rw [decide_eq_true_eq]
        exact hcon
      rw [htrue] at hval
      simp at hval
    by_cases h1 : 1/10 < p
    · right
      by_contra h2
      push_neg at h2
      exact hnot ⟨h1, h2⟩
    · left
      linarith [not_lt.mp h1]
  unfold model_step
  rcases hcases with hlow | htop
  · rw [(lastIndexGT_Ph_none p).mpr hlow]
  · have hhi : ∃ k, lastIndexGT p Ph = some k := by
      cases hph : lastIndexGT p Ph with
      | none =>
        have := (lastIndexGT_Ph_none p).mp hph
        exfalso
        linarith
      | some k => exact ⟨k, rfl⟩
    have hlo : ∃ k, lastIndexGT p Pl = some k := by
      cases hpl : lastIndexGT p Pl with
      | none =>
        have := (lastIndexGT_Pl_none p).mp hpl
        exfalso
        linarith
      | some k => exact ⟨k, rfl⟩
    obtain ⟨hi, hhi⟩ := hhi
    obtain ⟨lo, hlo⟩ := hlo
    have hhi11 : 11 ≤ hi := (lastIndexGT_Ph_top p hi hhi).mpr htop
    have hAh : Ah.length = 11 := rfl
    rw [hhi, hlo]
    dsimp only
    rw [if_pos (by omega)]

theorem get_models_aux_spec : ∀ (periods : List ℚ) (pInd : ℕ),
    get_models_aux periods pInd
      = ((periods.filter modelInRange).map nhnmVal,
         (periods.filter modelInRange).map nlnmVal,
         ((List.range periods.length).filter
           (fun i => modelInRange (periods.getD i 0))).map (fun i => pInd + i)) := by
  intro periods
  induction periods with
  | nil => intro pInd; rfl
  | cons p rest ih =>
    intro pInd
    rw [range_filter_getD_cons]
    have hcons : get_models_aux (p :: rest) pInd
        = (match model_step p with
           | some v => (v.1 :: (get_models_aux rest (pInd + 1)).1,
                        v.2 :: (get_models_aux rest (pInd + 1)).2.1,
                        pInd :: (get_models_aux rest (pInd + 1)).2.2)
           | none => get_models_aux rest (pInd + 1)) := rfl
    rw [hcons]
    by_cases hval : modelInRange p = true
    · rw [model_step_valid p hval, List.filter_cons_of_pos hval, List.map_cons,
        List.map_cons, ih (pInd + 1), if_pos hval, List.singleton_append]
    · have hval2 : modelInRange p = false := by
        cases h : modelInRange p
        · rfl
        · exact absurd h hval
      rw [model_step_invalid p hval2, List.filter_cons_of_neg (by simp [hval2]),
        ih (pInd + 1), if_neg (by simp [hval2]), List.nil_append]

/-- C9: `get_models` returns, for exactly the periods inside the
tabulated range (`0.1 < T ≤ 100000`), the values
`Ah[h] + Bh[h]·log10(T)` and `Al[l] + Bl[l]·log10(T)` where `h` (resp.
`l`) is the largest index with `T > Ph[h]` (resp. `T > Pl[l]`), and
`validIdx` lists exactly the in-range indices; on periods `[1, 10]` it
returns NHNM `[-116.85, -115.79]`, NLNM `[-166.40, -163.75]` and
`validIdx = [0, 1]`. -/
theorem C9_noise_models :
    (∀ periods : List ℚ, get_models periods
      = ((periods.filter modelInRange).map nhnmVal,
         (periods.filter modelInRange).map nlnmVal,
         (List.range periods.length).filter
           (fun i => modelInRange (periods.getD i 0)))) ∧
    (∀ p : ℚ, modelInRange p = true ↔ (1/10 < p ∧ p ≤ 100000)) ∧
    (∀ (p : ℚ) (k : ℕ), lastIndexGT p Ph = some k →
      k < Ph.length ∧ Ph.getD k 0 < p ∧
        ∀ j, j < Ph.length → Ph.getD j 0 < p → j ≤ k) ∧
    (∀ (p : ℚ) (k : ℕ), lastIndexGT p Pl = some k →
      k < Pl.length ∧ Pl.getD k 0 < p ∧
        ∀ j, j < Pl.length → Pl.getD j 0 < p → j ≤ k) ∧
    get_models [1, 10] = ([-116.85, -115.79], [-166.40, -163.75], [0, 1]) := by
  have hmain : ∀ periods : List ℚ, get_models periods
      = ((periods.filter modelInRange).map nhnmVal,
         (periods.filter modelInRange).map nlnmVal,
         (List.range periods.length).filter
           (fun i => modelInRange (periods.getD i 0))) := by
    intro periods
    rw [get_models, get_models_aux_spec]
    have hid : ((List.range periods.length).filter
          (fun i => modelInRange (periods.getD i 0))).map (fun i => 0 + i)
        = (List.range periods.length).filter
          (fun i => modelInRange (periods.getD i 0)) := by
      rw [List.map_congr_left (fun i _ => Nat.zero_add i)]
      exact List.map_id _
    rw [hid]
  have hPh : ∀ (p : ℚ) (k : ℕ), lastIndexGT p Ph = some k →
      k < Ph.length ∧ Ph.getD k 0 < p ∧
        ∀ j, j < Ph.length → Ph.getD j 0 < p → j ≤ k := by
    intro p k h
    obtain ⟨j, hj, hk0, hlt, hmax⟩ := (lastIndexGTAux_spec p Ph 0).2 k h
    have : k = j := by omega
    subst this
    exact ⟨hj, hlt, hmax⟩
  have hPl : ∀ (p : ℚ) (k : ℕ), lastIndexGT p Pl = some k →
      k < Pl.length ∧ Pl.getD k 0 < p ∧
        ∀ j, j < Pl.length → Pl.getD j 0 < p → j ≤ k := by
    intro p k h
    obtain ⟨j, hj, hk0, hlt, hmax⟩ := (lastIndexGTAux_spec p Pl 0).2 k h
    have : k = j := by omega
    subst this
    exact ⟨hj, hlt, hmax⟩
  refine ⟨hmain, fun p => by rw [modelInRange, decide_eq_true_eq], hPh, hPl, ?_⟩
  have h1 : modelInRange 1 = true := by
    rw [modelInRange, decide_eq_true_eq]
    norm_num
  have h10 : modelInRange 10 = true := by
    rw [modelInRange, decide_eq_true_eq]
    norm_num
  have hPh1 : lastIndexGT (1 : ℚ) Ph = some 3 := by
    norm_num [lastIndexGT, lastIndexGTAux, Ph]
  have hPh10 : lastIndexGT (10 : ℚ) Ph = some 7 := by
    norm_num [lastIndexGT, lastIndexGTAux, Ph]
  have hPl1 : lastIndexGT (1 : ℚ) Pl = some 3 := by
    norm_num [lastIndexGT, lastIndexGTAux, Pl]
  have hPl10 : lastIndexGT (10 : ℚ) Pl = some 8 := by
    norm_num [lastIndexGT, lastIndexGTAux, Pl]
  have hnh1 : nhnmVal 1 = -116.85 := by
    unfold nhnmVal
    rw [hPh1]
    dsimp only
    rw [show Ah.getD 3 0 = -116.85 from rfl, show Bh.getD 3 0 = 32.51 from rfl]
    rw [show ((1 : ℚ) : ℝ) = 1 from by norm_num, Real.logb_one]
    push_cast
    ring
  have hnh10 : nhnmVal 10 = -115.79 := by
    unfold nhnmVal
    rw [hPh10]
    dsimp only
    rw [show Ah.getD 7 0 = -93.37 from rfl, show Bh.getD 7 0 = -22.42 from rfl]
    rw [show ((10 : ℚ) : ℝ) = 10 from by norm_num,
      Real.logb_self_eq_one (by norm_num)]
    push_cast
    norm_num
  have hnl1 : nlnmVal 1 = -166.40 := by
    unfold nlnmVal
    rw [hPl1]
    dsimp only
    rw [show Al.getD 3 0 = -166.40 from rfl, show Bl.getD 3 0 = 28.90 from rfl]
    rw [show ((1 : ℚ) : ℝ) = 1 from by norm_num, Real.logb_one]
    push_cast
    ring
  have hnl10 : nlnmVal 10 = -163.75 := by
    unfold nlnmVal
    rw [hPl10]
    dsimp only
    rw [show Al.getD 8 0 = -97.26 from rfl, show Bl.getD 8 0 = -66.49 from rfl]
    rw [show ((10 : ℚ) : ℝ) = 10 from by norm_num,
      Real.logb_self_eq_one (by norm_num)]
    push_cast
    norm_num
  rw [hmain [1, 10]]
  rw [show ([1, 10] : List ℚ).filter modelInRange = [1, 10] from by
    rw [List.filter_cons_of_pos h1, List.filter_cons_of_pos h10, List.filter_nil]]
  rw [show List.range ([1, 10] : List ℚ).length = [0, 1] from rfl]
  rw [show ([0, 1] : List ℕ).filter
      (fun i => modelInRange (([1, 10] : List ℚ).getD i 0)) = [0, 1] from by
    rw [List.filter_cons_of_pos (by simpa using h1),
      List.filter_cons_of_pos (by simpa using h10), List.filter_nil]]
  rw [List.map_cons, List.map_cons, List.map_nil, List.map_cons, List.map_cons,
    List.map_nil, hnh1, hnh10, hnl1, hnl10]

/-- C9 witness: the largest-index characterization applied at period 1,
whose selected NHNM segment is index 3. -/
theorem C9_witness :
    3 < Ph.length ∧ Ph.getD 3 0 < 1 ∧
      ∀ j, j < Ph.length → Ph.getD j 0 < 1 → j ≤ 3 :=
  C9_noise_models.2.2.1 1 3 (by norm_num [lastIndexGT, lastIndexGTAux, Ph])

/-- C6 counterexample: the claim quantifies over every margin, but at
margin `M = 0` the grade of `L + M` is not 85: the rational embedding of
`calculate_metric_grade` yields 100 there (the Python source raises
`ZeroDivisionError` instead of returning a value). -/
theorem C6_counterexample :
    calculate_metric_grade (0 + 0) 0 0 = 100 ∧ (100 : ℚ) ≠ 85 := by
  constructor
  · show max 0 (min 100 (100 - 15 * (0 + 0 - 0) / 0)) = 100
    norm_num
  · norm_num

/-- C6 (amended): for every value `v`, limit `L` and nonzero margin `M`,
`calculate_metric_grade` returns `clamp(100 − 15·(v − L)/M, 0, 100)`, so
its result lies in `[0, 100]`, the grade at `v = L` is 100 and the grade
at `v = L + M` is 85. -/
theorem C6_grade_clamped (v L M : ℚ) (hM : M ≠ 0) :
    calculate_metric_grade v L M = max 0 (min 100 (100 - 15 * (v - L) / M)) ∧
    0 ≤ calculate_metric_grade v L M ∧ calculate_metric_grade v L M ≤ 100 ∧
    calculate_metric_grade L L M = 100 ∧
    calculate_metric_grade (L + M) L M = 85 := by
  refine ⟨rfl, le_max_left _ _, max_le (by norm_num) (min_le_left _ _), ?_, ?_⟩
  · show max 0 (min 100 (100 - 15 * (L - L) / M)) = 100
    norm_num
  · show max 0 (min 100 (100 - 15 * (L + M - L) / M)) = 85
    rw [show L + M - L = M by ring, mul_div_assoc, div_self hM]
    norm_num

/-- C6 witness: the amended statement instantiated at
`(v, L, M) = (7, 3, 2)`. -/
theorem C6_witness :
    calculate_metric_grade 3 3 2 = 100 ∧ calculate_metric_grade (3 + 2) 3 2 = 85 :=
  ⟨(C6_grade_clamped 7 3 2 (by norm_num)).2.2.2.1,
   (C6_grade_clamped 7 3 2 (by norm_num)).2.2.2.2⟩

/-- C3: for every non-empty multiset of per-channel scores containing
the unresponsive/damaged sentinel `1.0`, the station score (and its
two-decimal rounding written to the analysis row) is at most
`poor_max_score`, which defaults to 59. -/
theorem C3_sentinel_caps_station_score (S : List ℚ) (hne : S ≠ []) (h1 : (1 : ℚ) ∈ S) :
    station_score S DEFAULT_THRESHOLDS ≤ 59 ∧
    round2 (station_score S DEFAULT_THRESHOLDS) ≤ 59 := by
  have h59 : DEFAULT_THRESHOLDS.poor_max_score = (59 : ℚ) := rfl
  have hs : station_score S DEFAULT_THRESHOLDS ≤ 59 := by
    unfold station_score
    rw [if_neg hne, if_pos h1, ← h59]
    exact min_le_right _ _
  exact ⟨hs, round2_le_of_le (n := 5900) (by norm_num) hs⟩

/-- C3 witness: the score list `[1]` contains the sentinel and its
station score is capped at 59. -/
theorem C3_witness : station_score [1] DEFAULT_THRESHOLDS ≤ 59 :=
  (C3_sentinel_caps_station_score [1] (by simp) (by simp)).1

/-- C4 counterexample: for per-channel scores `[92, 88, 1.0]` the
station score is `percentile_25 = 44.5`, not 59 as the claim states
(the `min` with 59 leaves 44.5 unchanged). -/
theorem C4_counterexample :
    station_score [92, 88, 1] DEFAULT_THRESHOLDS = 89 / 2 ∧ (89 / 2 : ℚ) ≠ 59 := by
  constructor
  · have hfl : (⌊(1 : ℚ) / 2⌋) = 0 := by
      rw [Int.floor_eq_iff]; norm_num
    have hcl : (⌈(1 : ℚ) / 2⌉) = 1 := by
      rw [Int.ceil_eq_iff]; norm_num
    have hne : ([92, 88, 1] : List ℚ) ≠ [] := by simp
    have hmem : (1 : ℚ) ∈ ([92, 88, 1] : List ℚ) := by
      simp
    unfold station_score
    rw [if_neg hne, if_pos hmem]
    norm_num [aggregate_station_score, npPercentile, npSorted,
      List.insertionSort, List.orderedInsert, hfl, hcl, DEFAULT_THRESHOLDS,
      min_def]
  · norm_num

/-- C4 (amended): for per-channel scores `[92, 88, 1.0]` the station
score is `min(percentile_25([92, 88, 1.0]), poor_max_score) = 44.5`, the
written value is 44.5 and the classification is `Buruk`. -/
theorem C4_station_buruk :
    station_score [92, 88, 1] DEFAULT_THRESHOLDS
        = min (aggregate_station_score [92, 88, 1]) DEFAULT_THRESHOLDS.poor_max_score ∧
    aggregate_station_score [92, 88, 1] = 89 / 2 ∧
    station_score [92, 88, 1] DEFAULT_THRESHOLDS = 89 / 2 ∧
    round2 (station_score [92, 88, 1] DEFAULT_THRESHOLDS) = 89 / 2 ∧
    check_qc (station_score [92, 88, 1] DEFAULT_THRESHOLDS) = "Buruk" := by
  have hfl : (⌊(1 : ℚ) / 2⌋) = 0 := by
    rw [Int.floor_eq_iff]; norm_num
  have hcl : (⌈(1 : ℚ) / 2⌉) = 1 := by
    rw [Int.ceil_eq_iff]; norm_num
  have hagg : aggregate_station_score [92, 88, 1] = 89 / 2 := by
    norm_num [aggregate_station_score, npPercentile, npSorted,
      List.insertionSort, List.orderedInsert, hfl, hcl]
  have hne : ([92, 88, 1] : List ℚ) ≠ [] := by simp
  have hmem : (1 : ℚ) ∈ ([92, 88, 1] : List ℚ) := by simp
  have hstep : station_score [92, 88, 1] DEFAULT_THRESHOLDS
      = min (aggregate_station_score [92, 88, 1]) DEFAULT_THRESHOLDS.poor_max_score := by
    unfold station_score
    rw [if_neg hne, if_pos hmem]
  have hsc : station_score [92, 88, 1] DEFAULT_THRESHOLDS = 89 / 2 := by
    rw [hstep, hagg]
    norm_num [DEFAULT_THRESHOLDS, min_def]
  refine ⟨hstep, hagg, hsc, ?_, ?_⟩
  · rw [hsc]
    have h4450 : (⌊(89 : ℚ) / 2 * 100⌋) = 4450 := by
      rw [Int.floor_eq_iff]; norm_num
    norm_num [round2, halfEvenRound, h4450]
  · rw [hsc]
    norm_num [check_qc]

/-- C5 counterexample: a station submitted to the grading engine whose
catalog lookup (`get_station_info`) returns no rows receives no analysis
row at all — `run_qc_analysis` returns without writing ("No station info
found in database. Skipping analysis."), so the count is 0, not exactly
one. -/
theorem C5_counterexample :
    (run_qc_analysis "postgresql" "20240101" [] (fun _ => []) DEFAULT_THRESHOLDS).1.length
      = 0 := rfl

/-- C5 (amended): for every station whose catalog lookup returns exactly
one info row with at least four fields, exactly one analysis row is
written for (station, date); when the station has no detail rows for the
date, that row has score 0, classification `Mati`, and details equal to
the single entry "Tidak ada data". -/
theorem C5_exactly_one_analysis_row (db_type tanggal network kode loc tipe : String)
    (rest : List String) (details : String → List (List DBVal)) (th : QCThresholds) :
    (run_qc_analysis db_type tanggal [network :: kode :: loc :: tipe :: rest] details th).2
      = true ∧
    (run_qc_analysis db_type tanggal [network :: kode :: loc :: tipe :: rest] details th).1.length
      = 1 ∧
    (details kode = [] →
      (run_qc_analysis db_type tanggal [network :: kode :: loc :: tipe :: rest] details th).1
        = [{ code := kode, date := tanggal, percqc := 0, kualitas := "Mati",
             tipe := if db_type = "mysql" then some tipe else none,
             keterangan := "Tidak ada data" }]) := by
  have hrow : analyze_station_info_row db_type tanggal
      (network :: kode :: loc :: tipe :: rest) (details kode) th
      = (if details kode = [] then
          some (insert_qc_analysis_result db_type kode tanggal 0 "Mati" tipe
            ["Tidak ada data"])
        else
          some (insert_qc_analysis_result db_type kode tanggal
            (round2 (station_score (process_qc_rows db_type (details kode) th).1 th))
            (check_qc (station_score (process_qc_rows db_type (details kode) th).1 th))
            tipe (process_qc_rows db_type (details kode) th).2)) := by
    simp [analyze_station_info_row, List.get?]
  have hloop : run_qc_analysis db_type tanggal
      [network :: kode :: loc :: tipe :: rest] details th
      = (match analyze_station_info_row db_type tanggal
            (network :: kode :: loc :: tipe :: rest) (details kode) th with
         | none => ([], false)
         | some row => ([row], true)) := by
    simp [run_qc_analysis, run_qc_analysis_loop, List.getD]
  by_cases hd : details kode = []
  · rw [hloop, hrow, if_pos hd]
    exact ⟨rfl, rfl, fun _ => rfl⟩
  · rw [hloop, hrow, if_neg hd]
    exact ⟨rfl, rfl, fun hcon => absurd hcon hd⟩

/-- C5 witness: the amended statement instantiated at a concrete
postgresql station with an empty detail table. -/
theorem C5_witness :
    (run_qc_analysis "postgresql" "20240101" [["IA", "AAI", "", "Broadband"]]
        (fun _ => []) DEFAULT_THRESHOLDS).1.length = 1 :=
  (C5_exactly_one_analysis_row "postgresql" "20240101" "IA" "AAI" "" "Broadband"
    [] (fun _ => []) DEFAULT_THRESHOLDS).2.1

/-- C2: evaluation of the two dialect read branches on rows produced by
the corresponding `insert_detail` statements.  The mysql branch reads
the percentages back aligned (`pct_above = pctH = 100`,
`pct_below = pctL = 0` on the default row), but the postgresql branch
reads `pct_above` from the column populated with `pctL` and `pct_below`
from the column populated with `pctH` — the derived tuple is swapped.
On a healthy row the per-channel score nevertheless agrees across
dialects, while the derived warning messages differ. -/
theorem C2_pg_read_swaps_percentages :
    parse_qc_row "mysql" (mysql_select_detail_row (.q 1) C2row)
      = some { komp := "BHZ", rms := 0, ratioamp := 0, avail := 0, ngap1 := 1,
               nover := 0, num_spikes := 0, pct_above := 100, pct_below := 0,
               dcl := 0, dcg := 0 } ∧
    parse_qc_row "postgresql" (pg_select_detail_row C2row)
      = some { komp := "BHZ", rms := 0, ratioamp := 0, avail := 0, ngap1 := 1,
               nover := 0, num_spikes := 0, pct_above := 0, pct_below := 100,
               dcl := 0, dcg := 0 } ∧
    C2row.pctH = 100 ∧ C2row.pctL = 0 ∧
    ((parse_qc_row "mysql" (mysql_select_detail_row (.q 1) C2rowB)).map
        (fun m => (channel_botqc m DEFAULT_THRESHOLDS).1)
      = (parse_qc_row "postgresql" (pg_select_detail_row C2rowB)).map
        (fun m => (channel_botqc m DEFAULT_THRESHOLDS).1)) ∧
    ((parse_qc_row "mysql" (mysql_select_detail_row (.q 1) C2rowB)).map
        (fun m => (channel_botqc m DEFAULT_THRESHOLDS).2)
      ≠ (parse_qc_row "postgresql" (pg_select_detail_row C2rowB)).map
        (fun m => (channel_botqc m DEFAULT_THRESHOLDS).2)) := by
  have hMy : parse_qc_row "mysql" (mysql_select_detail_row (.q 1) C2row)
      = some { komp := "BHZ", rms := 0, ratioamp := 0, avail := 0, ngap1 := 1,
               nover := 0, num_spikes := 0, pct_above := 100, pct_below := 0,
               dcl := 0, dcg := 0 } := by
    unfold parse_qc_row
    rw [if_pos rfl]
    norm_num [mysql_select_detail_row, insert_detail_values, C2row,
      mkChannelMetrics, getRat, getStr, List.get?, DBVal.asRat, DBVal.asStr, ratToInt]
  have hPg : parse_qc_row "postgresql" (pg_select_detail_row C2row)
      = some { komp := "BHZ", rms := 0, ratioamp := 0, avail := 0, ngap1 := 1,
               nover := 0, num_spikes := 0, pct_above := 0, pct_below := 100,
               dcl := 0, dcg := 0 } := by
    unfold parse_qc_row
    rw [if_neg (by decide : ¬ ("postgresql" = "mysql")), if_pos rfl]
    norm_num [pg_select_detail_row, insert_detail_values, C2row,
      mkChannelMetrics, getRat, getStr, List.get?, DBVal.asRat, DBVal.asStr, ratToInt]
  have hMyB : parse_qc_row "mysql" (mysql_select_detail_row (.q 1) C2rowB)
      = some { komp := "BHZ", rms := 100, ratioamp := 1, avail := 95, ngap1 := 0,
               nover := 0, num_spikes := 0, pct_above := 25, pct_below := 0,
               dcl := 10, dcg := 0 } := by
    unfold parse_qc_row
    rw [if_pos rfl]
    norm_num [mysql_select_detail_row, insert_detail_values, C2rowB,
      mkChannelMetrics, getRat, getStr, List.get?, DBVal.asRat, DBVal.asStr, ratToInt]
  have hPgB : parse_qc_row "postgresql" (pg_select_detail_row C2rowB)
      = some { komp := "BHZ", rms := 100, ratioamp := 1, avail := 95, ngap1 := 0,
               nover := 0, num_spikes := 0, pct_above := 0, pct_below := 25,
               dcl := 10, dcg := 0 } := by
    unfold parse_qc_row
    rw [if_neg (by decide : ¬ ("postgresql" = "mysql")), if_pos rfl]
    norm_num [pg_select_detail_row, insert_detail_values, C2rowB,
      mkChannelMetrics, getRat, getStr, List.get?, DBVal.asRat, DBVal.asStr, ratToInt]
  have hBotMy : channel_botqc
      { komp := "BHZ", rms := 100, ratioamp := 1, avail := 95, ngap1 := 0,
        nover := 0, num_spikes := 0, pct_above := 25, pct_below := 0,
        dcl := 10, dcg := 0 } DEFAULT_THRESHOLDS
      = (89, ["Noise tinggi di komponen BHZ",
              "Availability rendah pada komponen BHZ"]) := by
    norm_num [channel_botqc, calculate_metric_grade, determine_warning,
      DEFAULT_THRESHOLDS, min_def, max_def]
    rfl
  have hBotPg : channel_botqc
      { komp := "BHZ", rms := 100, ratioamp := 1, avail := 95, ngap1 := 0,
        nover := 0, num_spikes := 0, pct_above := 0, pct_below := 25,
        dcl := 10, dcg := 0 } DEFAULT_THRESHOLDS
      = (89, ["Cek metadata komponen BHZ",
              "Availability rendah pada komponen BHZ"]) := by
    norm_num [channel_botqc, calculate_metric_grade, determine_warning,
      DEFAULT_THRESHOLDS, min_def, max_def]
    rfl
  refine ⟨hMy, hPg, rfl, rfl, ?_, ?_⟩
  · rw [hMyB, hPgB]
    simp only [Option.map_some']
    rw [hBotMy, hBotPg]
  · rw [hMyB, hPgB]
    simp only [Option.map_some']
    rw [hBotMy, hBotPg]
    decide

/-- C1 counterexample: a component with `ngap = 2001 > 2000` whose PPSD
computation succeeds does NOT skip PPSD nor write a default-PPSD detail
row — the high-gap gate is commented out in the source, so the PPSD
stage is entered (`true`) and the written row carries the computed PPSD
fields (`pct_above` column holds 10, not the default 100). -/
theorem C1_counterexample :
    C1basic.ngap > 2000 ∧
    (component_after_basic_metrics "AAI_Z_20240101" "AAI" "20240101" "BHZ" C1basic
        (.ok C1ppsd)).1 = true ∧
    (component_after_basic_metrics "AAI_Z_20240101" "AAI" "20240101" "BHZ" C1basic
        (.ok C1ppsd)).2
      = insert_full_qc_detail "AAI_Z_20240101" "AAI" "20240101" "BHZ" C1basic C1ppsd ∧
    ((component_after_basic_metrics "AAI_Z_20240101" "AAI" "20240101" "BHZ" C1basic
        (.ok C1ppsd)).2.getD 10 (.q 0) = .q 10) ∧
    ¬ ((component_after_basic_metrics "AAI_Z_20240101" "AAI" "20240101" "BHZ" C1basic
        (.ok C1ppsd)).2.getD 10 (.q 0) = .q 100) := by
  refine ⟨by norm_num [C1basic], rfl, rfl, rfl, ?_⟩
  intro hcon
  have : (10 : ℚ) = 100 := by
    have h2 : DBVal.q 10 = DBVal.q 100 := hcon
    injection h2
  norm_num at this

/-- C1 (amended): there is no high-gap gate — for every component whose
basic metrics were computed, the worker always enters the PPSD stage
regardless of `ngap`; the detail row with the computed basic metrics and
default PPSD fields is written exactly when the PPSD stage times out,
raises, or returns `None`, and a successful PPSD result is written in
full. -/
theorem C1_no_high_gap_gate (id_kode kode tgl cha : String)
    (b : BasicMetricsDict) (p : PPSDOutcome) :
    (component_after_basic_metrics id_kode kode tgl cha b p).1 = true ∧
    (∀ f, p = .ok f →
      (component_after_basic_metrics id_kode kode tgl cha b p).2
        = insert_full_qc_detail id_kode kode tgl cha b f) ∧
    ((p = .timeout ∨ p = .err ∨ p = .nullResult) →
      (component_after_basic_metrics id_kode kode tgl cha b p).2
        = insert_default_qc_detail id_kode kode tgl cha b) := by
  cases p with
  | timeout =>
    refine ⟨rfl, fun f hf => ?_, fun _ => rfl⟩
    cases hf
  | err =>
    refine ⟨rfl, fun f hf => ?_, fun _ => rfl⟩
    cases hf
  | nullResult =>
    refine ⟨rfl, fun f hf => ?_, fun _ => rfl⟩
    cases hf
  | ok f0 =>
    refine ⟨rfl, fun f hf => ?_, fun hcon => ?_⟩
    · cases hf
      rfl
    · rcases hcon with h | h | h <;> cases h

/-- C1 witness: the amended statement instantiated at a timed-out PPSD
stage, which yields the default-PPSD row. -/
theorem C1_witness :
    (component_after_basic_metrics "AAI_Z_20240101" "AAI" "20240101" "BHZ" C1basic
        .timeout).2
      = insert_default_qc_detail "AAI_Z_20240101" "AAI" "20240101" "BHZ" C1basic :=
  (C1_no_high_gap_gate "AAI_Z_20240101" "AAI" "20240101" "BHZ" C1basic
    .timeout).2.2 (Or.inl rfl)

theorem daily_loop_succ (o : DailyOracle) (stations network : List String)
    (fuel : ℕ) (run_trigger : ℤ) (flush : Bool) (passes flushes : ℕ) :
    daily_loop o stations network (fuel + 1) run_trigger flush passes flushes
      = if run_trigger > 0 ∨ run_trigger = -1 then
          daily_loop o stations network fuel
            (if stations ≠ [] ∨ network ≠ [] then 0
             else if 0 < o.pendingProcess passes ∨ 0 < o.pendingAnalysis passes then
               (if run_trigger + 1 ≥ 5 then 0 else run_trigger + 1)
             else 0)
            (if flush then false else flush)
            (passes + 1)
            (if flush then flushes + 1 else flushes)
        else ⟨passes, flushes⟩ := rfl

/-- C10 counterexample: a filtered run (stations filter `["XYZ"]`) with
the flush flag set DOES invoke `flush_daily_data` — once — because the
flush step precedes the filter-dependent control flow and the CLI only
forbids `--flush` together with `--date-range`, not with filters. -/
theorem C10_counterexample :
    (run_single_day C10oracle ["XYZ"] [] true).flushes = 1 := rfl

/-- C10 (amended): for every run of the daily processor in which a
stations or network filter is supplied, the processing loop executes
exactly one pass, and `flush_daily_data` is invoked on that single pass
if and only if the flush flag is set. -/
theorem C10_filtered_single_pass (o : DailyOracle) (stations network : List String)
    (flush : Bool) (hfilt : stations ≠ [] ∨ network ≠ []) :
    run_single_day o stations network flush
      = ⟨1, if flush then 1 else 0⟩ := by
  unfold run_single_day
  rw [if_pos hfilt]
  rw [show (6 : ℕ) = 5 + 1 from rfl, daily_loop_succ]
  rw [if_pos (Or.inr rfl : ((-1 : ℤ) > 0 ∨ (-1 : ℤ) = -1))]
  rw [if_pos hfilt]
  rw [show (5 : ℕ) = 4 + 1 from rfl, daily_loop_succ]
  rw [if_neg (by norm_num : ¬ ((0 : ℤ) > 0 ∨ (0 : ℤ) = -1))]

/-- C10 witness: a filtered run without the flush flag runs exactly one
pass and never flushes. -/
theorem C10_witness :
    run_single_day C10oracle ["XYZ"] [] false = ⟨1, 0⟩ :=
  C10_filtered_single_pass C10oracle ["XYZ"] [] false (Or.inl (by simp))

end SQES
